import Mathlib

/-!
A verification development for the san-script bytecode compiler and
interpreter.  The Rust sources are shallowly embedded: machine integers
are `Int` (64-bit wrap-around applied where the arithmetic natives can
overflow), `f64` is modelled by `F64` below (exact rationals plus NaN and
the two infinities; rounding of real IEEE-754 arithmetic is not modelled,
which is irrelevant to the claims proved here, all of which concern
equality tests, zero tests and truncating casts), shared mutable cells
(`PtrMut`) become explicit heaps indexed by natural numbers, and fallible
or diverging code returns `Except` with an explicit fuel bound where the
Rust loops over pointer chains.
-/

namespace San

/-- Runtime error taxonomy: each constructor corresponds to one family of
panic sites in the Rust interpreter and builtins. -/
inductive RtError where
  | arityMismatch
  | nameUnresolved
  | protocolMissing
  | typeMismatch
  | indexOutOfBounds
  | stackCorruption
  | propertyMissing
  | invalidValue
  | divideByZero
  | argIndex
  | danglingRef
  | poolIndex
  | reentrantNative
  | outOfFuel
deriving DecidableEq, Repr

/-- Model of Rust `f64`: NaN, the two infinities, and finite values as
exact rationals.  Every finite `f64` is a rational, so this is a sound
superset; arithmetic on finite values is exact (no rounding, no signed
zero), which the claims never observe. -/
inductive F64 where
  | nan
  | inf (negative : Bool)
  | finite (q : ℚ)
deriving DecidableEq, Repr

/-- IEEE equality on the `F64` model: NaN compares unequal to everything,
including itself; `+0.0 = -0.0` holds because both are the rational 0. -/
def F64.feq : F64 → F64 → Bool
  | .nan, _ => false
  | _, .nan => false
  | .inf b, .inf c => b == c
  | .inf _, .finite _ => false
  | .finite _, .inf _ => false
  | .finite p, .finite q => p == q

/-- Test `x != 0.0` as the Rust `as_bool` / `equals` coercions do: NaN and
the infinities are nonzero, a finite value is nonzero iff its rational
payload is. -/
def F64.neZero : F64 → Bool
  | .nan => true
  | .inf _ => true
  | .finite q => q != 0

/-- Truncation of a rational toward zero (the rounding used by Rust
`as i64` casts on in-range floats): with the reduced numerator and the
positive denominator, T-division is exactly truncation toward zero. -/
def ratTrunc (q : ℚ) : Int :=
  q.num.tdiv q.den

def i64Min : Int := -(2 ^ 63)
def i64Max : Int := 2 ^ 63 - 1

/-- Rust `f64 as i64`: saturating cast, truncation toward zero, NaN maps
to 0. -/
def F64.toI64 : F64 → Int
  | .nan => 0
  | .inf b => if b then i64Min else i64Max
  | .finite q =>
    if ratTrunc q < i64Min then i64Min
    else if i64Max < ratTrunc q then i64Max
    else ratTrunc q

/-- Rust `i64 as f64`, modelled as the exact injection (real conversion
rounds once magnitudes exceed 2^53; no claim exercises that range). -/
def i64ToF64 (n : Int) : F64 := .finite (n : ℚ)

/-- Rust `i64 as usize`: reinterpret the two's-complement bit pattern,
i.e. reduce modulo 2^64. -/
def i64ToUsize (n : Int) : Nat := (n % (2 ^ 64 : Int)).toNat

/-- Wrap an unbounded integer to the i64 range, as Rust release-build
arithmetic does (debug builds panic on overflow instead). -/
def i64Wrap (n : Int) : Int := (n + 2 ^ 63) % 2 ^ 64 - 2 ^ 63

/-- The arity patterns a native function may declare
(`value.rs`, `ArgPattern`). -/
inductive ArgPattern where
  | any
  | exact (n : Nat)
  | min (n : Nat)
  | max (n : Nat)
  | range (lo hi : Nat)
deriving DecidableEq, Repr

/-- The bytecode instruction set (`instruction.rs`).  `ret` stands for the
Rust variant `Return`. -/
inductive Instruction where
  | call (argc : Nat)
  | jumpFalse (a : Nat)
  | jump (a : Nat)
  | ret
  | createFunction
  | createList (len : Nat)
  | pop
  | loadConstant (i : Nat)
  | declare (n : Nat)
  | loadVariable (n : Nat)
  | storeVariable (n : Nat)
  | storeProperty (n : Nat)
  | loadProperty (n : Nat)
  | exit (c : Nat)
  | storeSubscript
  | loadSubscript
  | add
  | subtract
  | multiply
  | divide
  | equals
  | notEquals
  | lessThan
  | greaterThan
  | lessThanOrEqual
  | greaterThanOrEqual
deriving DecidableEq, Repr

/-- Identifiers for the native function pointers constructed in
`builtins.rs` and `builtins/types.rs`; Rust compares natives by code
address, which these ids model. -/
inductive NativeId where
  | strDisplay | strAdd
  | listDisplay | listGetSubscript | listSetSubscript | listAdd | listPush
  | intDisplay | intAdd | intSubtract | intDivide | intMultiply
  | intLessThan | intGreaterThan | intLessThanOrEqual | intGreaterThanOrEqual
  | floatDisplay | floatAdd | floatSubtract | floatDivide | floatMultiply
  | floatLessThan | floatGreaterThan | floatLessThanOrEqual
  | floatGreaterThanOrEqual
  | functionDisplay | boolDisplay | frameDisplay | nativeDisplay | codeDisplay
  | nullDisplay | objectDisplay | objectEquals | objectNotEquals
  | objectGetProperty | objectSetProperty | typeDisplay | printFn
deriving DecidableEq, Repr

mutual
/-- Runtime values (`value.rs`).  `Ptr<String>` compares structurally in
Rust (derived `PartialEq` on `Rc<String>`), so strings carry their
contents; the mutable cells `Object`, `List` and `Frame` become heap ids;
`Type` values carry the index of the type descriptor. -/
inductive Value where
  | null
  | object (o : Nat)
  | list (l : Nat)
  | string (s : String)
  | integer (n : Int)
  | float (f : F64)
  | bool (b : Bool)
  | code (c : Code)
  | frame (f : Nat)
  | function (fn : Func)
  | bound (obj : Value) (receiver : Value)
  | native (f : NativeId) (pat : ArgPattern)
  | type (t : Nat)

/-- A compiled code object (`frame.rs`, `Code`). -/
inductive Code where
  | mk (instructions : List Instruction) (constants : List Value)
       (names : List String) (parameters : Nat)

/-- A user function (`frame.rs`, `Function`): code plus captured enclosing
frame. -/
inductive Func where
  | mk (code : Code) (outer_frame : Nat)
end

def Code.instructions : Code → List Instruction
  | .mk i _ _ _ => i

def Code.constants : Code → List Value
  | .mk _ c _ _ => c

def Code.names : Code → List String
  | .mk _ _ n _ => n

def Code.parameters : Code → Nat
  | .mk _ _ _ p => p

def Func.code : Func → Code
  | .mk c _ => c

def Func.outer_frame : Func → Nat
  | .mk _ o => o

/-! Association-list model of `HashMap<Ptr<String>, Value>`.  `Ptr`
derives structural `Hash`/`Eq`, so the Rust maps are keyed by string
contents; `insert` overwrites an existing binding. -/

def scopeGet (s : List (String × Value)) (k : String) : Option Value :=
  (s.find? (fun p => p.1 == k)).map (·.2)

def scopeContains (s : List (String × Value)) (k : String) : Bool :=
  (s.find? (fun p => p.1 == k)).isSome

def scopeInsert (s : List (String × Value)) (k : String) (v : Value) :
    List (String × Value) :=
  if scopeContains s k then
    s.map (fun p => if p.1 == k then (k, v) else p)
  else
    s ++ [(k, v)]

/-- A type descriptor (`value.rs`, `Type`): name, optional base link and
one optional callable per protocol slot, plus a property table.  The
defaults mirror `Type::empty`. -/
structure TypeDescr where
  name : String
  base : Option Nat := none
  call : Option Value := none
  add : Option Value := none
  subtract : Option Value := none
  multiply : Option Value := none
  divide : Option Value := none
  equals : Option Value := none
  not_equals : Option Value := none
  less_than : Option Value := none
  greater_than : Option Value := none
  less_than_or_equal : Option Value := none
  greater_than_or_equal : Option Value := none
  display : Option Value := none
  get_property : Option Value := none
  set_property : Option Value := none
  get_subscript : Option Value := none
  set_subscript : Option Value := none
  properties : List (String × Value) := []

/-- Heap record for an `Object` value (`value.rs`, `Object`). -/
structure ObjectRec where
  ty : Nat
  properties : List (String × Value)

/-- A call frame (`frame.rs`, `Frame`), with the two pointer links as
heap ids. -/
structure FrameRec where
  instruction_count : Nat
  code : Code
  scope : List (String × Value)
  calling_frame : Option Nat
  outer_frame : Option Nat
  stack : List Value

/-- Pending control transfer between interpreter steps
(`interpreter.rs`, `Action`). -/
inductive Action where
  | call (f : Nat)
  | ret (v : Value)
  | retNative (v : Value)

/-- The interpreter state: the frame heap with the active frame id, the
object and list heaps backing the `PtrMut` cells, the type descriptor
table (index = identity of the `Ptr<Type>`), and the pending action. -/
structure MachState where
  frames : List FrameRec
  frame : Nat
  objects : List ObjectRec
  lists : List (List Value)
  types : List TypeDescr
  next_action : Option Action

/-! Builtin type ids, in the construction order of `BuiltinTypes::new`:
the root object type first, then the derived types. -/

def objectTypeId : Nat := 0
def stringTypeId : Nat := 1
def listTypeId : Nat := 2
def floatTypeId : Nat := 3
def boolTypeId : Nat := 4
def integerTypeId : Nat := 5
def frameTypeId : Nat := 6
def nativeTypeId : Nat := 7
def functionTypeId : Nat := 8
def codeTypeId : Nat := 9
def nullTypeId : Nat := 10
def tyTypeId : Nat := 11

/-- The type of a value (`Value::ty`): mutable cells read their heap
record (heap ids are always live in states reachable by the interpreter,
so the dangling default is never taken), a bound value has the type of
its underlying callable, every other variant maps to its builtin type. -/
def tyOf (st : MachState) : Value → Nat
  | .object o =>
    match st.objects[o]? with
    | some r => r.ty
    | none => objectTypeId
  | .bound o _ => tyOf st o
  | .list _ => listTypeId
  | .string _ => stringTypeId
  | .float _ => floatTypeId
  | .integer _ => integerTypeId
  | .bool _ => boolTypeId
  | .function _ => functionTypeId
  | .frame _ => frameTypeId
  | .native _ _ => nativeTypeId
  | .code _ => codeTypeId
  | .null => nullTypeId
  | .type _ => tyTypeId

/-- The `get_native_prop!` walk (`interpreter.rs`): starting from a type,
return the first non-empty slot selected by `sel`, following base links;
`none` means the chain ran out (the Rust macro panics there).  The fuel
only guards against cyclic base chains, which the builtin table does not
have. -/
def getNativePropAux (env : List TypeDescr) (sel : TypeDescr → Option Value) :
    Nat → Nat → Option Value
  | 0, _ => none
  | fuel + 1, tyId =>
    match env[tyId]? with
    | none => none
    | some ty =>
      match sel ty with
      | some prop => some prop
      | none =>
        match ty.base with
        | some b => getNativePropAux env sel fuel b
        | none => none

def getNativeProp (env : List TypeDescr) (sel : TypeDescr → Option Value)
    (tyId : Nat) : Option Value :=
  getNativePropAux env sel (env.length + 1) tyId

/-- The default equality of the root type (`builtins/types.rs`,
`fn equals`): numeric cross-coercion, identity for types, objects and
natives, content equality for strings (the Rust id fast path implies
content equality), everything else compares unequal. -/
def valueEquals : Value → Value → Bool
  | .bool l, .bool r => l == r
  | .bool l, .integer r => l == (r != 0)
  | .bool l, .float r => l == r.neZero
  | .integer l, .integer r => l == r
  | .integer l, .float r => (i64ToF64 l).feq r
  | .integer l, .bool r => (l != 0) == r
  | .float l, .float r => l.feq r
  | .float l, .integer r => l.feq (i64ToF64 r)
  | .float l, .bool r => l.neZero == r
  | .type l, .type r => l == r
  | .string l, .string r => l == r
  | .object l, .object r => l == r
  | .null, .null => true
  | .native l _, .native r _ => l == r
  | _, _ => false

/-! Exact-rational arithmetic on the `F64` model, used by the float
natives.  NaN propagates; indeterminate forms produce NaN; signs of
infinities follow IEEE-754.  Signed zero and rounding are not modelled
(no claim observes them). -/

def F64.addF : F64 → F64 → F64
  | .nan, _ => .nan
  | _, .nan => .nan
  | .inf b, .inf c => if b == c then .inf b else .nan
  | .inf b, .finite _ => .inf b
  | .finite _, .inf c => .inf c
  | .finite p, .finite q => .finite (p + q)

def F64.negF : F64 → F64
  | .nan => .nan
  | .inf b => .inf (!b)
  | .finite q => .finite (-q)

def F64.subF (x y : F64) : F64 := x.addF y.negF

def F64.mulF : F64 → F64 → F64
  | .nan, _ => .nan
  | _, .nan => .nan
  | .inf b, .inf c => .inf (b != c)
  | .inf b, .finite q => if q = 0 then .nan else .inf (b != decide (q < 0))
  | .finite q, .inf c => if q = 0 then .nan else .inf (c != decide (q < 0))
  | .finite p, .finite q => .finite (p * q)

def F64.divF : F64 → F64 → F64
  | .nan, _ => .nan
  | _, .nan => .nan
  | .inf _, .inf _ => .nan
  | .inf b, .finite q => .inf (b != decide (q < 0))
  | .finite _, .inf _ => .finite 0
  | .finite p, .finite q =>
    if q = 0 then (if p = 0 then .nan else .inf (decide (p < 0)))
    else .finite (p / q)

def F64.ltF : F64 → F64 → Bool
  | .nan, _ => false
  | _, .nan => false
  | .inf b, .inf c => b && !c
  | .inf b, .finite _ => b
  | .finite _, .inf c => !c
  | .finite p, .finite q => p < q

def F64.leF : F64 → F64 → Bool
  | .nan, _ => false
  | _, .nan => false
  | .inf b, .inf c => b || !c
  | .inf b, .finite _ => b
  | .finite _, .inf c => !c
  | .finite p, .finite q => p ≤ q

def F64.gtF (x y : F64) : Bool := F64.ltF y x

def F64.geF (x y : F64) : Bool := F64.leF y x

/-! Coercion accessors on values (`value.rs`): each panics with a type
mismatch when the variant is wrong. -/

def Value.stringV : Value → Except RtError String
  | .string s => .ok s
  | _ => .error .typeMismatch

def Value.intV : Value → Except RtError Int
  | .integer n => .ok n
  | _ => .error .typeMismatch

def Value.floatV : Value → Except RtError F64
  | .float f => .ok f
  | _ => .error .typeMismatch

def Value.boolV : Value → Except RtError Bool
  | .bool b => .ok b
  | _ => .error .typeMismatch

def Value.listV : Value → Except RtError Nat
  | .list l => .ok l
  | _ => .error .typeMismatch

/-- Rust `Value::as_int`: integers pass through, floats are cast with
`as i64` (truncation toward zero, saturating, NaN to 0), anything else is
a type mismatch. -/
def Value.asIntV : Value → Except RtError Int
  | .integer n => .ok n
  | .float f => .ok f.toI64
  | _ => .error .typeMismatch

/-- Rust `Value::as_float`: integers are converted, floats pass
through. -/
def Value.asFloatV : Value → Except RtError F64
  | .integer n => .ok (i64ToF64 n)
  | .float f => .ok f
  | _ => .error .typeMismatch

/-- Rust `Value::as_bool` (used by `JumpFalse`): integers and floats are
tested against zero, booleans pass through. -/
def Value.asBoolV : Value → Except RtError Bool
  | .integer n => .ok (n != 0)
  | .float f => .ok f.neZero
  | .bool b => .ok b
  | _ => .error .typeMismatch

/-! The builtin type table (`builtins/types.rs`), one definition per Rust
constructor function.  Slots hold `Value.native` with the id of the
corresponding closure and its arity pattern. -/

def string_ty : TypeDescr where
  name := "str"
  base := some objectTypeId
  display := some (.native .strDisplay (.exact 1))
  add := some (.native .strAdd (.exact 2))

def list_ty : TypeDescr where
  name := "list"
  base := some objectTypeId
  display := some (.native .listDisplay (.exact 1))
  get_subscript := some (.native .listGetSubscript (.exact 2))
  set_subscript := some (.native .listSetSubscript (.exact 3))
  add := some (.native .listAdd (.exact 2))
  properties := [("push", .native .listPush (.exact 2))]

def integer_ty : TypeDescr where
  name := "int"
  base := some objectTypeId
  display := some (.native .intDisplay (.exact 1))
  add := some (.native .intAdd (.exact 2))
  subtract := some (.native .intSubtract (.exact 2))
  divide := some (.native .intDivide (.exact 2))
  multiply := some (.native .intMultiply (.exact 2))
  less_than := some (.native .intLessThan (.exact 2))
  greater_than := some (.native .intGreaterThan (.exact 2))
  less_than_or_equal := some (.native .intLessThanOrEqual (.exact 2))
  greater_than_or_equal := some (.native .intGreaterThanOrEqual (.exact 2))

def float_ty : TypeDescr where
  name := "float"
  base := some objectTypeId
  display := some (.native .floatDisplay (.exact 1))
  add := some (.native .floatAdd (.exact 2))
  subtract := some (.native .floatSubtract (.exact 2))
  divide := some (.native .floatDivide (.exact 2))
  multiply := some (.native .floatMultiply (.exact 2))
  less_than := some (.native .floatLessThan (.exact 2))
  greater_than := some (.native .floatGreaterThan (.exact 2))
  less_than_or_equal := some (.native .floatLessThanOrEqual (.exact 2))
  greater_than_or_equal := some (.native .floatGreaterThanOrEqual (.exact 2))

def function_ty : TypeDescr where
  name := "function"
  base := some objectTypeId
  display := some (.native .functionDisplay (.exact 1))

def bool_ty : TypeDescr where
  name := "bool"
  base := some objectTypeId
  display := some (.native .boolDisplay (.exact 1))

def frame_ty : TypeDescr where
  name := "Frame"
  base := some objectTypeId
  display := some (.native .frameDisplay (.exact 1))

def native_ty : TypeDescr where
  name := "NativeFunction"
  base := some objectTypeId
  display := some (.native .nativeDisplay (.exact 1))

def code_ty : TypeDescr where
  name := "Code"
  base := some objectTypeId
  display := some (.native .codeDisplay (.exact 1))

def null_ty : TypeDescr where
  name := "null"
  base := some objectTypeId
  display := some (.native .nullDisplay (.exact 1))

/-- The root type (`object_ty` in `builtins/types.rs`): no base, default
display, equality and property access. -/
def object_ty : TypeDescr where
  name := "object"
  display := some (.native .objectDisplay (.exact 1))
  equals := some (.native .objectEquals (.exact 2))
  not_equals := some (.native .objectNotEquals (.exact 2))
  get_property := some (.native .objectGetProperty (.exact 2))
  set_property := some (.native .objectSetProperty (.exact 3))

def ty_ty : TypeDescr where
  name := "object"
  base := some objectTypeId
  display := some (.native .typeDisplay (.exact 1))

/-- The builtin type table laid out at the ids above. -/
def builtinTypes : List TypeDescr :=
  [object_ty, string_ty, list_ty, float_ty, bool_ty, integer_ty,
   frame_ty, native_ty, function_ty, code_ty, null_ty, ty_ty]

/-- Wrap a callable property value into a bound method, as the two
`Some(res @ Value::Function(_)) | Some(res @ Value::Native(..))` match
arms in `get_property` do; non-callables are returned unchanged. -/
def bindCallable (res target : Value) : Value :=
  match res with
  | .function _ => .bound res target
  | .native _ _ => .bound res target
  | _ => res

/-- The type-chain part of the default `get_property`
(`builtins/types.rs`): walk property tables up the base chain, binding
callables to the target; at the root without a hit, fatal error. -/
def getPropertyChain (env : List TypeDescr) (target : Value) (prop : String) :
    Nat → Nat → Except RtError Value
  | 0, _ => .error .outOfFuel
  | fuel + 1, tyId =>
    match env[tyId]? with
    | none => .error .danglingRef
    | some ty =>
      match scopeGet ty.properties prop with
      | some res => .ok (bindCallable res target)
      | none =>
        match ty.base with
        | some b => getPropertyChain env target prop fuel b
        | none => .error .propertyMissing

/-- The default `get_property` of the root type: an `Object` target first
consults its instance property table (binding callables); on a miss, and
for every other kind of target, the lookup walks the type chain. -/
def getPropertyFn (st : MachState) (target : Value) (prop : String) :
    Except RtError Value :=
  match target with
  | .object oid =>
    match st.objects[oid]? with
    | none => .error .danglingRef
    | some orec =>
      match scopeGet orec.properties prop with
      | some res => .ok (bindCallable res target)
      | none =>
        getPropertyChain st.types target prop (st.types.length + 1)
          (tyOf st target)
  | _ =>
    getPropertyChain st.types target prop (st.types.length + 1)
      (tyOf st target)

/-- The default `set_property` of the root type: only `Object` targets
support it; the instance table is updated in place. -/
def setPropertyFn (st : MachState) (target : Value) (prop : String)
    (v : Value) : Except RtError MachState :=
  match target with
  | .object oid =>
    match st.objects[oid]? with
    | none => .error .danglingRef
    | some orec =>
      .ok { st with
            objects := st.objects.set oid
              { orec with properties := scopeInsert orec.properties prop v } }
  | _ => .error .typeMismatch

/-- Decimal rendering of an i64, as `format!` produces for the int
display native. -/
def intDisplayString (n : Int) : String := toString n

/-- Execute a native function body (`builtins.rs`, `builtins/types.rs`).
Argument positions follow the Rust `args[k]` accesses; running off the
end of the argument list maps the Rust index panic to an error.  The two
natives that re-enter the interpreter loop (`print` and the list
`display`) are outside the modelled fragment, as is the decimal
shortest-round-trip formatting of floats; no claim depends on them. -/
def runNative (nid : NativeId) (args : List Value) (st : MachState) :
    Except RtError (Value × MachState) :=
  match nid, args with
  | .strDisplay, a :: _ => .ok (a, st)
  | .strAdd, a :: b :: _ => do
    let s1 ← a.stringV
    let s2 ← b.stringV
    .ok (.string (s1 ++ s2), st)
  | .listDisplay, _ => .error .reentrantNative
  | .listGetSubscript, a :: b :: _ => do
    let lid ← a.listV
    match st.lists[lid]? with
    | none => .error .danglingRef
    | some xs => do
      let n ← b.asIntV
      match xs[i64ToUsize n]? with
      | some v => .ok (v, st)
      | none => .error .indexOutOfBounds
  | .listSetSubscript, a :: b :: c :: _ => do
    let lid ← a.listV
    match st.lists[lid]? with
    | none => .error .danglingRef
    | some xs => do
      let n ← b.asIntV
      if i64ToUsize n < xs.length then
        .ok (.null, { st with lists := st.lists.set lid (xs.set (i64ToUsize n) c) })
      else
        .error .indexOutOfBounds
  | .listAdd, a :: b :: _ => do
    let l1 ← a.listV
    let l2 ← b.listV
    match st.lists[l1]?, st.lists[l2]? with
    | some xs, some ys =>
      .ok (.list st.lists.length, { st with lists := st.lists ++ [xs ++ ys] })
    | _, _ => .error .danglingRef
  | .listPush, a :: b :: _ => do
    let lid ← a.listV
    match st.lists[lid]? with
    | none => .error .danglingRef
    | some xs =>
      .ok (.null, { st with lists := st.lists.set lid (xs ++ [b]) })
  | .intDisplay, a :: _ => do
    let n ← a.intV
    .ok (.string (intDisplayString n), st)
  | .intAdd, a :: b :: _ => do
    let l ← a.intV
    let r ← b.asIntV
    .ok (.integer (i64Wrap (l + r)), st)
  | .intSubtract, a :: b :: _ => do
    let l ← a.intV
    let r ← b.asIntV
    .ok (.integer (i64Wrap (l - r)), st)
  | .intDivide, a :: b :: _ => do
    let l ← a.intV
    let r ← b.asIntV
    if r = 0 then .error .divideByZero
    else .ok (.integer (i64Wrap (Int.tdiv l r)), st)
  | .intMultiply, a :: b :: _ => do
    let l ← a.intV
    let r ← b.asIntV
    .ok (.integer (i64Wrap (l * r)), st)
  | .intLessThan, a :: b :: _ => do
    let l ← a.intV
    let r ← b.asIntV
    .ok (.bool (decide (l < r)), st)
  | .intGreaterThan, a :: b :: _ => do
    let l ← a.intV
    let r ← b.asIntV
    .ok (.bool (decide (r < l)), st)
  | .intLessThanOrEqual, a :: b :: _ => do
    let l ← a.intV
    let r ← b.asIntV
    .ok (.bool (decide (l ≤ r)), st)
  | .intGreaterThanOrEqual, a :: b :: _ => do
    let l ← a.intV
    let r ← b.asIntV
    .ok (.bool (decide (r ≤ l)), st)
  | .floatDisplay, _ => .error .reentrantNative
  | .floatAdd, a :: b :: _ => do
    let l ← a.floatV
    let r ← b.asFloatV
    .ok (.float (l.addF r), st)
  | .floatSubtract, a :: b :: _ => do
    let l ← a.floatV
    let r ← b.asFloatV
    .ok (.float (l.subF r), st)
  | .floatDivide, a :: b :: _ => do
    let l ← a.floatV
    let r ← b.asFloatV
    .ok (.float (l.divF r), st)
  | .floatMultiply, a :: b :: _ => do
    let l ← a.floatV
    let r ← b.asFloatV
    .ok (.float (l.mulF r), st)
  | .floatLessThan, a :: b :: _ => do
    let l ← a.floatV
    let r ← b.asFloatV
    .ok (.bool (l.ltF r), st)
  | .floatGreaterThan, a :: b :: _ => do
    let l ← a.floatV
    let r ← b.asFloatV
    .ok (.bool (l.gtF r), st)
  | .floatLessThanOrEqual, a :: b :: _ => do
    let l ← a.floatV
    let r ← b.asFloatV
    .ok (.bool (l.leF r), st)
  | .floatGreaterThanOrEqual, a :: b :: _ => do
    let l ← a.floatV
    let r ← b.asFloatV
    .ok (.bool (l.geF r), st)
  | .functionDisplay, _ => .ok (.string "<function object>", st)
  | .boolDisplay, a :: _ => do
    let b ← a.boolV
    .ok (.string (if b then "true" else "false"), st)
  | .frameDisplay, _ => .ok (.string "<frame object>", st)
  | .nativeDisplay, _ => .ok (.string "<native function>", st)
  | .codeDisplay, _ => .ok (.string "<code object>", st)
  | .nullDisplay, _ => .ok (.string "null", st)
  | .objectDisplay, _ => .ok (.string "<object>", st)
  | .objectEquals, a :: b :: _ => .ok (.bool (valueEquals a b), st)
  | .objectNotEquals, a :: b :: _ => .ok (.bool (!valueEquals a b), st)
  | .objectGetProperty, a :: b :: _ => do
    let p ← b.stringV
    let v ← getPropertyFn st a p
    .ok (v, st)
  | .objectSetProperty, a :: b :: c :: _ => do
    let p ← b.stringV
    let st' ← setPropertyFn st a p c
    .ok (.null, st')
  | .typeDisplay, _ => .ok (.string "<type object>", st)
  | .printFn, _ => .error .reentrantNative
  | _, _ => .error .argIndex

/-! Machine primitives: reading and updating the active frame. -/

def MachState.currentFrame? (st : MachState) : Option FrameRec :=
  st.frames[st.frame]?

/-- Replace the active frame's record. -/
def setCurrentFrame (st : MachState) (fr : FrameRec) : MachState :=
  { st with frames := st.frames.set st.frame fr }

/-- Replace the active frame's operand stack. -/
def setCurrentStack (st : MachState) (s : List Value) : MachState :=
  match st.currentFrame? with
  | some fr => setCurrentFrame st { fr with stack := s }
  | none => st

/-- Push onto the active frame's operand stack (`Frame::push`; the Vec
top is the list head here). -/
def framePush (st : MachState) (v : Value) : Except RtError MachState :=
  match st.currentFrame? with
  | some fr => .ok (setCurrentFrame st { fr with stack := v :: fr.stack })
  | none => .error .danglingRef

/-- Pop from the active frame's operand stack (`Frame::pop`); the Rust
code panics with a stack-corruption message on an empty stack. -/
def framePop (st : MachState) : Except RtError (Value × MachState) :=
  match st.currentFrame? with
  | some fr =>
    match fr.stack with
    | v :: rest => .ok (v, setCurrentFrame st { fr with stack := rest })
    | [] => .error .stackCorruption
  | none => .error .danglingRef

/-- Pop `n` values, returned in pop order (first popped first), as the
`Call` handler collects its arguments. -/
def popN (st : MachState) : Nat → Except RtError (List Value × MachState)
  | 0 => .ok ([], st)
  | n + 1 => do
    let (v, st') ← framePop st
    let (vs, st'') ← popN st' n
    .ok (v :: vs, st'')

/-- The builtins registry (`Builtins::resolve`): the only registered name
is `print`, bound to the variadic print native. -/
def builtinsResolve (name : String) : Option Value :=
  if name == "print" then some (.native .printFn .any) else none

/-- The lexical name lookup (`Interpreter::resolve_name`): walk the
enclosing-frame chain from the given frame, returning the first frame id
whose scope contains the name.  Fuel guards only against cyclic chains,
which reachable states never have (each frame's enclosing link points to
an older frame). -/
def resolveNameAux (st : MachState) (name : String) :
    Nat → Option Nat → Option Nat
  | 0, _ => none
  | _, none => none
  | fuel + 1, some fid =>
    match st.frames[fid]? with
    | none => none
    | some fr =>
      if scopeContains fr.scope name then some fid
      else resolveNameAux st name fuel fr.outer_frame

def resolveName (st : MachState) (name : String) : Option Nat :=
  resolveNameAux st name (st.frames.length + 1) (some st.frame)

/-- Look up a name-pool entry of the active frame's code
(`Frame::name`); out of range is an index panic in Rust. -/
def currentName (st : MachState) (namei : Nat) : Except RtError String :=
  match st.currentFrame? with
  | none => .error .danglingRef
  | some fr =>
    match fr.code.names[namei]? with
    | some n => .ok n
    | none => .error .poolIndex

/-- Fetch the instruction at the active frame's program counter
(`Frame::instruction`). -/
def currentInstruction (st : MachState) : Except RtError Instruction :=
  match st.currentFrame? with
  | none => .error .danglingRef
  | some fr =>
    match fr.code.instructions[fr.instruction_count]? with
    | some i => .ok i
    | none => .error .poolIndex

/-- The arity guard cascade in `call_value`'s `Native` arm: true exactly
when one of the four `panic!` guards fires. -/
def arityViolated : ArgPattern → Nat → Bool
  | .any, _ => false
  | .exact len, n => len != n
  | .min m, n => n < m
  | .max m, n => m < n
  | .range lo hi, n => n < lo || hi < n

/-- `Interpreter::call_value`.  A user function gets a fresh frame (the
active frame as caller, the captured frame as enclosing) after an exact
arity check, parameters bound positionally, and a pending `Call`; a
native is checked against its arity pattern and run synchronously with a
pending `ReturnNative`; a bound value prepends its receiver and recurses
on the underlying callable; any other value dispatches through the `call`
slot of its type chain with itself prepended.  Fuel bounds the recursion
through `call` slots (the builtin table has none). -/
def callValue : Nat → MachState → Value → List Value →
    Except RtError MachState
  | 0, _, _, _ => .error .outOfFuel
  | fuel + 1, st, v, args =>
    match v with
    | .function fn =>
      let params := fn.code.names.take fn.code.parameters
      if params.length != args.length then .error .arityMismatch
      else
        let scope := (params.zip args).foldl
          (fun s pv => scopeInsert s pv.1 pv.2) []
        let fr : FrameRec :=
          { instruction_count := 0, code := fn.code, scope := scope,
            calling_frame := some st.frame,
            outer_frame := some fn.outer_frame, stack := [] }
        .ok { st with frames := st.frames ++ [fr],
                      next_action := some (.call st.frames.length) }
    | .native nid pat =>
      if arityViolated pat args.length then .error .arityMismatch
      else do
        let (ret, st') ← runNative nid args st
        .ok { st' with next_action := some (.retNative ret) }
    | .bound obj receiver => callValue fuel st obj (receiver :: args)
    | other =>
      match getNativeProp st.types (·.call) (tyOf st other) with
      | some c => callValue fuel st c (other :: args)
      | none => .error .protocolMissing

/-! Instruction handlers (`interpreter.rs`), one per method. -/

/-- The `operation!` macro body: `pop_pair` yields `(lhs, rhs)` with
`lhs` popped first (hence from the top of the stack), the slot selected
by `sel` is looked up on `rhs`'s type chain, and called with `[lhs,
rhs]`; a chain without the slot is fatal. -/
def execOperation (fuel : Nat) (sel : TypeDescr → Option Value)
    (st : MachState) : Except RtError MachState := do
  let (lhs, st1) ← framePop st
  let (rhs, st2) ← framePop st1
  match getNativeProp st2.types sel (tyOf st2 rhs) with
  | some prop => callValue fuel st2 prop [lhs, rhs]
  | none => .error .protocolMissing

def execPop (st : MachState) : Except RtError MachState := do
  let (_, st') ← framePop st
  .ok st'

def execCall (fuel : Nat) (st : MachState) (argc : Nat) :
    Except RtError MachState := do
  let (func, st1) ← framePop st
  let (args, st2) ← popN st1 argc
  callValue fuel st2 func args

def execReturn (st : MachState) : Except RtError MachState := do
  let (v, st') ← framePop st
  .ok { st' with next_action := some (.ret v) }

def execCreateFunction (st : MachState) : Except RtError MachState := do
  let (v, st') ← framePop st
  match v with
  | .code c => framePush st' (.function (.mk c st'.frame))
  | _ => .error .invalidValue

def execLoadConstant (st : MachState) (consi : Nat) :
    Except RtError MachState :=
  match st.currentFrame? with
  | none => .error .danglingRef
  | some fr =>
    match fr.code.constants[consi]? with
    | some c => framePush st c
    | none => .error .poolIndex

def execLoadVariable (st : MachState) (namei : Nat) :
    Except RtError MachState := do
  let name ← currentName st namei
  match builtinsResolve name with
  | some b => framePush st b
  | none =>
    match resolveName st name with
    | some fid =>
      match st.frames[fid]? with
      | some fr =>
        match scopeGet fr.scope name with
        | some v => framePush st v
        | none => .error .nameUnresolved
      | none => .error .danglingRef
    | none => .error .nameUnresolved

def execStoreVariable (st : MachState) (namei : Nat) :
    Except RtError MachState := do
  let name ← currentName st namei
  match resolveName st name with
  | some fid =>
    match st.frames[fid]? with
    | some _ => do
      let (v, st') ← framePop st
      match st'.frames[fid]? with
      | some fr' =>
        .ok { st' with
              frames := st'.frames.set fid
                { fr' with scope := scopeInsert fr'.scope name v } }
      | none => .error .danglingRef
    | none => .error .danglingRef
  | none => .error .nameUnresolved

def execDeclare (st : MachState) (namei : Nat) :
    Except RtError MachState := do
  let name ← currentName st namei
  let (v, st') ← framePop st
  match st'.currentFrame? with
  | some fr =>
    .ok (setCurrentFrame st' { fr with scope := scopeInsert fr.scope name v })
  | none => .error .danglingRef

def execCreateList (st : MachState) (len : Nat) :
    Except RtError MachState := do
  let (vals, st') ← popN st len
  let st'' := { st' with lists := st'.lists ++ [vals] }
  framePush st'' (.list st'.lists.length)

def execStoreSubscript (fuel : Nat) (st : MachState) :
    Except RtError MachState := do
  let (obj, st1) ← framePop st
  let (subs, st2) ← framePop st1
  let (v, st3) ← framePop st2
  match getNativeProp st3.types (·.set_subscript) (tyOf st3 obj) with
  | some prop => callValue fuel st3 prop [obj, subs, v]
  | none => .error .protocolMissing

def execLoadSubscript (fuel : Nat) (st : MachState) :
    Except RtError MachState := do
  let (obj, st1) ← framePop st
  let (subs, st2) ← framePop st1
  match getNativeProp st2.types (·.get_subscript) (tyOf st2 obj) with
  | some prop => callValue fuel st2 prop [obj, subs]
  | none => .error .protocolMissing

def execStoreProperty (fuel : Nat) (st : MachState) (namei : Nat) :
    Except RtError MachState := do
  let (obj, st1) ← framePop st
  let prop ← currentName st1 namei
  let (v, st2) ← framePop st1
  match getNativeProp st2.types (·.set_property) (tyOf st2 obj) with
  | some slot => callValue fuel st2 slot [obj, .string prop, v]
  | none => .error .protocolMissing

def execLoadProperty (fuel : Nat) (st : MachState) (namei : Nat) :
    Except RtError MachState := do
  let (obj, st1) ← framePop st
  let prop ← currentName st1 namei
  match getNativeProp st1.types (·.get_property) (tyOf st1 obj) with
  | some slot => callValue fuel st1 slot [obj, .string prop]
  | none => .error .protocolMissing

def execJump (st : MachState) (a : Nat) : Except RtError MachState :=
  match st.currentFrame? with
  | some fr => .ok (setCurrentFrame st { fr with instruction_count := a })
  | none => .error .danglingRef

def execJumpFalse (st : MachState) (a : Nat) : Except RtError MachState := do
  let (v, st') ← framePop st
  let b ← v.asBoolV
  if b then .ok st'
  else
    match st'.currentFrame? with
    | some fr => .ok (setCurrentFrame st' { fr with instruction_count := a })
    | none => .error .danglingRef

/-- Result of one interpreter step: a successor state, process exit, or
a fatal error (Rust panic). -/
inductive StepRes where
  | next (st : MachState)
  | exited (code : Nat)
  | fatal (e : RtError)

/-- The unconditional post-increment of the program counter at the end of
`Interpreter::execute` (`jump_relative(1)` on the active frame, which a
pending call or return has not yet switched). -/
def advancePC (st : MachState) : Except RtError MachState :=
  match st.currentFrame? with
  | some fr =>
    .ok (setCurrentFrame st
      { fr with instruction_count := fr.instruction_count + 1 })
  | none => .error .danglingRef

/-- Lift the result of a handler (plus the program-counter advance) into
a step result: an error is a fatal panic. -/
def stepOfExcept : Except RtError MachState → StepRes
  | .ok st => .next st
  | .error e => .fatal e

/-- `Interpreter::execute`: fetch the instruction at the program counter,
dispatch to its handler, then advance the program counter by one.
`Exit` terminates the process before the post-increment. -/
def execute (fuel : Nat) (st : MachState) : StepRes :=
  match currentInstruction st with
  | .error e => .fatal e
  | .ok inst =>
    match inst with
    | .exit c => .exited c
    | _ =>
      let handled : Except RtError MachState :=
        match inst with
        | .pop => execPop st
        | .call argc => execCall fuel st argc
        | .ret => execReturn st
        | .createFunction => execCreateFunction st
        | .loadConstant consi => execLoadConstant st consi
        | .loadVariable namei => execLoadVariable st namei
        | .storeVariable namei => execStoreVariable st namei
        | .declare namei => execDeclare st namei
        | .exit _ => .error .danglingRef
        | .storeSubscript => execStoreSubscript fuel st
        | .loadSubscript => execLoadSubscript fuel st
        | .storeProperty namei => execStoreProperty fuel st namei
        | .loadProperty namei => execLoadProperty fuel st namei
        | .add => execOperation fuel (·.add) st
        | .subtract => execOperation fuel (·.subtract) st
        | .divide => execOperation fuel (·.divide) st
        | .multiply => execOperation fuel (·.multiply) st
        | .equals => execOperation fuel (·.equals) st
        | .notEquals => execOperation fuel (·.not_equals) st
        | .greaterThan => execOperation fuel (·.greater_than) st
        | .greaterThanOrEqual => execOperation fuel (·.greater_than_or_equal) st
        | .lessThan => execOperation fuel (·.less_than) st
        | .lessThanOrEqual => execOperation fuel (·.less_than_or_equal) st
        | .jump a => execJump st a
        | .jumpFalse a => execJumpFalse st a
        | .createList len => execCreateList st len
      stepOfExcept (handled >>= advancePC)

/-- One iteration of the interpreter's driving loops (`Interpreter::run`
and `run_frame`), flattened into a single small step.  A pending `Call`
switches the frame and executes; a pending `Return` with a caller
switches to the caller and pushes the returned value there (the push is
the `run` loop's `self.frame.value_mut().push(return_value)`), and
without a caller the process exits with code 0; a pending `ReturnNative`
pushes the native's result on the current frame; otherwise one
instruction executes. -/
def step (fuel : Nat) (st : MachState) : StepRes :=
  match st.next_action with
  | some (.ret v) =>
    match st.currentFrame? with
    | none => .fatal .danglingRef
    | some fr =>
      match fr.calling_frame with
      | some c =>
        match framePush { st with frame := c, next_action := none } v with
        | .ok st' => .next st'
        | .error e => .fatal e
      | none => .exited 0
  | some (.retNative v) =>
    match framePush { st with next_action := none } v with
    | .ok st' => .next st'
    | .error e => .fatal e
  | some (.call f) => execute fuel { st with frame := f, next_action := none }
  | none => execute fuel st

/-! The compiler (`ast.rs`, `compiler.rs`). -/

/-- The ten binary operators of the surface language (`ast.rs`). -/
inductive Operator where
  | add | subtract | multiply | divide | equals | notEquals
  | lessThan | greaterThan | lessThanOrEqual | greaterThanOrEqual
deriving DecidableEq, Repr

mutual
/-- Expressions (`ast.rs`).  `function` is a function literal,
`operation` a binary operation. -/
inductive Expression where
  | identifier (s : String)
  | integer (n : Int)
  | float (f : F64)
  | string (s : String)
  | list (items : List Expression)
  | object (items : List (String × Expression))
  | property (e : Expression) (name : String)
  | subscript (e : Expression) (idx : Expression)
  | function (params : List String) (body : List Statement)
  | functionCall (target : Expression) (args : List Expression)
  | operation (lhs : Expression) (op : Operator) (rhs : Expression)

/-- Statements (`ast.rs`).  `ret` is the Rust `Return` variant, `ifStmt`
the `If` variant with its two bodies. -/
inductive Statement where
  | expression (e : Expression)
  | ret (e : Expression)
  | assignment (target : AssignmentTarget) (source : Expression)
  | declaration (ident : String) (assign : Option Expression)
  | ifStmt (cond : Expression) (body : List Statement)
           (elseBody : List Statement)

/-- Assignment targets (`ast.rs`). -/
inductive AssignmentTarget where
  | identifier (s : String)
  | property (e : Expression) (name : String)
  | subscript (e : Expression) (idx : Expression)
end

/-- Compile-time failure: the object-literal arm of `compile_expression`
is `todo!()` in the source. -/
inductive CompileError where
  | objectLiteral
deriving DecidableEq, Repr

/-- Constant-pool entries of the compiler (`compiler.rs`, `Constant`).
A code constant carries the fields of its `CodeBuilder`. -/
inductive Constant where
  | null
  | integer (n : Int)
  | float (f : F64)
  | str (s : String)
  | code (instructions : List Instruction) (constants : List Constant)
         (names : List String) (parameters : Nat)

/-- The derived `PartialEq` used by constant interning: floats compare by
IEEE equality (the derived instance on the `f64` field), and a
`CodeBuilder` never equals anything (its manual `PartialEq` returns
false), so every code constant gets a fresh pool slot. -/
def constantEq : Constant → Constant → Bool
  | .null, .null => true
  | .integer a, .integer b => a == b
  | .float a, .float b => a.feq b
  | .str a, .str b => a == b
  | .code _ _ _ _, .code _ _ _ _ => false
  | _, _ => false

/-- The compiler's builder state (`compiler.rs`, `CodeBuilder`). -/
structure CodeBuilder where
  instructions : List Instruction
  constants : List Constant
  names : List String
  parameters : Nat

/-- A fresh builder with the given parameter count (`CodeBuilder::new`). -/
def newBuilder (parameters : Nat) : CodeBuilder :=
  { instructions := [], constants := [], names := [], parameters := parameters }

/-- View a finished nested builder as a code constant
(`Constant::from(CodeBuilder)`). -/
def Constant.ofBuilder (b : CodeBuilder) : Constant :=
  .code b.instructions b.constants b.names b.parameters

/-- Name interning by linear search (`CodeBuilder::use_name`): reuse an
equal entry or append. -/
def useName (b : CodeBuilder) (name : String) : CodeBuilder × Nat :=
  match b.names.findIdx? (· == name) with
  | some i => (b, i)
  | none => ({ b with names := b.names ++ [name] }, b.names.length)

/-- Constant interning by linear search (`CodeBuilder::use_constant`). -/
def useConstant (b : CodeBuilder) (c : Constant) : CodeBuilder × Nat :=
  match b.constants.findIdx? (fun c' => constantEq c' c) with
  | some i => (b, i)
  | none => ({ b with constants := b.constants ++ [c] }, b.constants.length)

/-- Append an instruction, returning its index (`CodeBuilder::inst`). -/
def instA (b : CodeBuilder) (i : Instruction) : CodeBuilder × Nat :=
  ({ b with instructions := b.instructions ++ [i] }, b.instructions.length)

/-- Intern a constant and emit the load for it
(`CodeBuilder::compile_constant`). -/
def compileConstant (b : CodeBuilder) (c : Constant) : CodeBuilder :=
  let (b1, consi) := useConstant b c
  (instA b1 (.loadConstant consi)).1

/-- The opcode for each binary operator (the `match op` table in
`compile_operation`). -/
def operatorInstruction : Operator → Instruction
  | .add => .add
  | .subtract => .subtract
  | .multiply => .multiply
  | .divide => .divide
  | .lessThan => .lessThan
  | .greaterThan => .greaterThan
  | .lessThanOrEqual => .lessThanOrEqual
  | .greaterThanOrEqual => .greaterThanOrEqual
  | .equals => .equals
  | .notEquals => .notEquals

mutual
/-- `CodeBuilder::compile_statement`. -/
def compileStatement (b : CodeBuilder) :
    Statement → Except CompileError CodeBuilder
  | .ret e => do
    let b1 ← compileExpression b e
    .ok (instA b1 .ret).1
  | .expression e => do
    let b1 ← compileExpression b e
    .ok (instA b1 .pop).1
  | .declaration ident assign => do
    let b1 ← match assign with
      | some e => compileExpression b e
      | none => .ok (compileConstant b .null)
    .ok (instA (useName b1 ident).1 (.declare (useName b1 ident).2)).1
  | .assignment target source => compileAssignment b target source
  | .ifStmt cond body elseBody => compileIfStatement b cond body elseBody
termination_by s => 2 * sizeOf s
decreasing_by all_goals (simp_wf; try omega)

/-- Compile a statement list in order (the loops over statement bodies in
the source). -/
def compileStatements (b : CodeBuilder) :
    List Statement → Except CompileError CodeBuilder
  | [] => .ok b
  | s :: ss => do
    let b1 ← compileStatement b s
    compileStatements b1 ss
termination_by ss => 2 * sizeOf ss
decreasing_by all_goals (simp_wf; try omega)

/-- `CodeBuilder::compile_operation`: the right operand is compiled
first, then the left, then the opcode. -/
def compileOperation (b : CodeBuilder) (lhs : Expression) (op : Operator)
    (rhs : Expression) : Except CompileError CodeBuilder := do
  let b1 ← compileExpression b rhs
  let b2 ← compileExpression b1 lhs
  .ok (instA b2 (operatorInstruction op)).1
termination_by 2 * (sizeOf lhs + sizeOf rhs) + 1
decreasing_by all_goals (simp_wf; try omega)

/-- `CodeBuilder::compile_assignment`: the source value first, then the
target-specific store (for a property target the object expression, for a
subscript target the subscript expression then the object expression). -/
def compileAssignment (b : CodeBuilder) (target : AssignmentTarget)
    (source : Expression) : Except CompileError CodeBuilder := do
  let b1 ← compileExpression b source
  match target with
  | .identifier ident =>
    .ok (instA (useName b1 ident).1 (.storeVariable (useName b1 ident).2)).1
  | .property e propName => do
    let b2 ← compileExpression b1 e
    .ok (instA (useName b2 propName).1
          (.storeProperty (useName b2 propName).2)).1
  | .subscript e sub => do
    let b2 ← compileExpression b1 sub
    let b3 ← compileExpression b2 e
    .ok (instA b3 .storeSubscript).1
termination_by 2 * (sizeOf target + sizeOf source) + 1
decreasing_by all_goals (simp_wf; try omega)

/-- `CodeBuilder::compile_function`: the body goes into a fresh builder
with the parameter names pre-interned, an implicit
`LoadConstant(Null); Return` is appended, and the enclosing builder gets
the code constant plus `CreateFunction`. -/
def compileFunction (b : CodeBuilder) (params : List String)
    (body : List Statement) : Except CompileError CodeBuilder := do
  let code0 := params.foldl (fun cb p => (useName cb p).1)
    (newBuilder params.length)
  let code1 ← compileStatements code0 body
  let code2 := compileConstant code1 .null
  let code3 := (instA code2 .ret).1
  let b1 := compileConstant b (Constant.ofBuilder code3)
  .ok (instA b1 .createFunction).1
termination_by 2 * sizeOf body + 1
decreasing_by all_goals (simp_wf; try omega)

/-- `CodeBuilder::compile_call`: arguments are compiled in reverse order,
then the callee, then `Call(argc)`. -/
def compileCall (b : CodeBuilder) (target : Expression)
    (args : List Expression) : Except CompileError CodeBuilder := do
  let b1 ← compileExpressionsRev b args
  let b2 ← compileExpression b1 target
  .ok (instA b2 (.call args.length)).1
termination_by 2 * (sizeOf target + sizeOf args) + 1
decreasing_by all_goals (simp_wf; try omega)

/-- `CodeBuilder::compile_expression`.  The object-literal arm is
`todo!()` in the source and is a compile error here. -/
def compileExpression (b : CodeBuilder) :
    Expression → Except CompileError CodeBuilder
  | .operation lhs op rhs => compileOperation b lhs op rhs
  | .integer n => .ok (compileConstant b (.integer n))
  | .float f => .ok (compileConstant b (.float f))
  | .string s => .ok (compileConstant b (.str s))
  | .function params body => compileFunction b params body
  | .functionCall target args => compileCall b target args
  | .subscript e sub => do
    let b1 ← compileExpression b sub
    let b2 ← compileExpression b1 e
    .ok (instA b2 .loadSubscript).1
  | .property e name => do
    let b1 ← compileExpression b e
    .ok (instA (useName b1 name).1 (.loadProperty (useName b1 name).2)).1
  | .object _ => .error .objectLiteral
  | .list items => compileList b items
  | .identifier ident =>
    .ok (instA (useName b ident).1 (.loadVariable (useName b ident).2)).1
termination_by e => 2 * sizeOf e
decreasing_by all_goals (simp_wf; try omega)

/-- Compile an expression list in reverse order (the `iter().rev()`
loops of `compile_call` and `compile_list`). -/
def compileExpressionsRev (b : CodeBuilder) :
    List Expression → Except CompileError CodeBuilder
  | [] => .ok b
  | x :: xs => do
    let b1 ← compileExpressionsRev b xs
    compileExpression b1 x
termination_by es => 2 * sizeOf es
decreasing_by all_goals (simp_wf; try omega)

/-- `CodeBuilder::compile_list`: items in reverse order, then
`CreateList(len)`. -/
def compileList (b : CodeBuilder) (items : List Expression) :
    Except CompileError CodeBuilder := do
  let b1 ← compileExpressionsRev b items
  .ok (instA b1 (.createList items.length)).1
termination_by 2 * sizeOf items + 1
decreasing_by all_goals (simp_wf; try omega)

/-- `CodeBuilder::compile_if_statement`: a `JumpFalse(0)` placeholder
before the then-body; with an else-body, a `Jump(0)` placeholder after
it; both are patched to the last-written instruction index of their
destination, relying on the interpreter's program-counter
post-increment. -/
def compileIfStatement (b : CodeBuilder) (cond : Expression)
    (body : List Statement) (elseBody : List Statement) :
    Except CompileError CodeBuilder := do
  let b1 ← compileExpression b cond
  let labelStart := (instA b1 (.jumpFalse 0)).2
  let b3 ← compileStatements (instA b1 (.jumpFalse 0)).1 body
  let labelEnd := b3.instructions.length
  if elseBody.isEmpty then
    .ok { b3 with
          instructions :=
            b3.instructions.set labelStart (.jumpFalse (labelEnd - 1)) }
  else do
    let labelElse := (instA b3 (.jump 0)).2
    let b5 ← compileStatements (instA b3 (.jump 0)).1 elseBody
    let labelElseEnd := b5.instructions.length
    let b6 := { b5 with
                instructions :=
                  b5.instructions.set labelElse (.jump (labelElseEnd - 1)) }
    .ok { b6 with
          instructions :=
            b6.instructions.set labelStart (.jumpFalse (labelEnd + 1 - 1)) }
termination_by 2 * (sizeOf cond + sizeOf body + sizeOf elseBody) + 1
decreasing_by all_goals (simp_wf; try omega)
end

/-- `CodeBuilder::compile_module`: every statement, then `Exit(0)`. -/
def compileModule (b : CodeBuilder) (body : List Statement) :
    Except CompileError CodeBuilder := do
  let b1 ← compileStatements b body
  .ok (instA b1 (.exit 0)).1

/-! Generic helper lemmas. -/

theorem exceptBind_ok {α β γ : Type} {x : Except γ α} {f : α → Except γ β}
    {r : β} (h : (x >>= f) = .ok r) : ∃ a, x = .ok a ∧ f a = .ok r := by
  cases x with
  | error e => simp [Bind.bind, Except.bind] at h
  | ok a => exact ⟨a, rfl, by simpa [Bind.bind, Except.bind] using h⟩

theorem set_append_add {α : Type} (p q : List α) (i : Nat) (v : α) :
    (p ++ q).set (p.length + i) v = p ++ q.set i v := by
  rw [List.set_append_right _ _ (by omega)]
  simp

theorem set_at_eq {α : Type} (p : List α) (x : α) (q : List α) (v : α)
    (n : Nat) (h : n = p.length) : (p ++ x :: q).set n v = p ++ v :: q := by
  subst h
  rw [List.set_append_right _ _ (le_refl _)]
  simp

/-! Facts about the builder primitives: only `inst` touches the
instruction list. -/

theorem instA_instructions (b : CodeBuilder) (i : Instruction) :
    (instA b i).1.instructions = b.instructions ++ [i] := rfl

theorem instA_idx (b : CodeBuilder) (i : Instruction) :
    (instA b i).2 = b.instructions.length := rfl

theorem useName_instructions (b : CodeBuilder) (n : String) :
    (useName b n).1.instructions = b.instructions := by
  unfold useName
  cases b.names.findIdx? (· == n) <;> rfl

theorem useConstant_instructions (b : CodeBuilder) (c : Constant) :
    (useConstant b c).1.instructions = b.instructions := by
  unfold useConstant
  cases b.constants.findIdx? (fun c' => constantEq c' c) <;> rfl

theorem compileConstant_instructions (b : CodeBuilder) (c : Constant) :
    (compileConstant b c).instructions =
      b.instructions ++ [.loadConstant (useConstant b c).2] := by
  unfold compileConstant
  rw [instA_instructions, useConstant_instructions]

/-- The outer effect of `compile_function`: whatever the nested builder
does, the enclosing builder only gains the code-constant load and
`CreateFunction`. -/
theorem compileFunction_append (b : CodeBuilder) (params : List String)
    (body : List Statement) (b' : CodeBuilder)
    (h : compileFunction b params body = .ok b') :
    ∃ t, t ≠ [] ∧ b'.instructions = b.instructions ++ t := by
  rw [compileFunction] at h
  obtain ⟨c1, _, h2⟩ := exceptBind_ok h
  simp only [Except.ok.injEq] at h2
  subst h2
  refine ⟨[.loadConstant (useConstant b (Constant.ofBuilder
      (instA (compileConstant c1 .null) .ret).1)).2, .createFunction],
    by simp, ?_⟩
  rw [instA_instructions, compileConstant_instructions]
  simp

mutual

/-- Compiling a statement only appends instructions, and appends at
least one. -/
theorem compileStatement_append (b : CodeBuilder) (s : Statement)
    (b' : CodeBuilder) (h : compileStatement b s = .ok b') :
    ∃ t, t ≠ [] ∧ b'.instructions = b.instructions ++ t := by
  cases s with
  | ret e =>
    rw [compileStatement] at h
    obtain ⟨b1, he, h2⟩ := exceptBind_ok h
    obtain ⟨t1, ht1⟩ := compileExpression_append b e b1 he
    simp only [Except.ok.injEq] at h2
    subst h2
    exact ⟨t1 ++ [.ret], by simp, by rw [instA_instructions, ht1,
      List.append_assoc]⟩
  | expression e =>
    rw [compileStatement] at h
    obtain ⟨b1, he, h2⟩ := exceptBind_ok h
    obtain ⟨t1, ht1⟩ := compileExpression_append b e b1 he
    simp only [Except.ok.injEq] at h2
    subst h2
    exact ⟨t1 ++ [.pop], by simp, by rw [instA_instructions, ht1,
      List.append_assoc]⟩
  | declaration ident assign =>
    cases assign with
    | some e =>
      rw [compileStatement] at h
      obtain ⟨b1, he, h2⟩ := exceptBind_ok h
      obtain ⟨t1, ht1⟩ := compileExpression_append b e b1 he
      simp only [Except.ok.injEq] at h2
      subst h2
      refine ⟨t1 ++ [.declare (useName b1 ident).2], by simp, ?_⟩
      rw [instA_instructions, useName_instructions, ht1, List.append_assoc]
    | none =>
      rw [compileStatement] at h
      obtain ⟨b1, he, h2⟩ := exceptBind_ok h
      simp only [Except.ok.injEq] at he h2
      subst h2
      refine ⟨[.loadConstant (useConstant b .null).2,
        .declare (useName b1 ident).2], by simp, ?_⟩
      rw [instA_instructions, useName_instructions, ← he,
        compileConstant_instructions]
      simp
  | assignment target source =>
    rw [compileStatement] at h
    exact compileAssignment_append b target source b' h
  | ifStmt cond body elseBody =>
    rw [compileStatement] at h
    obtain ⟨b1, t2, hc, ⟨t1, ht1⟩, hrest⟩ :=
      compileIfStatement_layout b cond body elseBody b' h
    cases hrest with
    | inl he =>
      refine ⟨t1 ++ [.jumpFalse (b1.instructions.length + t2.length)] ++ t2,
        by simp, ?_⟩
      rw [he.2, ht1]
      simp [List.append_assoc]
    | inr he =>
      obtain ⟨hne, t3, ht3ne, h3⟩ := he
      refine ⟨t1 ++ [.jumpFalse (b1.instructions.length + 1 + t2.length)]
        ++ t2
        ++ [.jump (b1.instructions.length + 1 + t2.length + t3.length)]
        ++ t3, by simp, ?_⟩
      rw [h3, ht1]
      simp [List.append_assoc]
termination_by 2 * sizeOf s
decreasing_by
  all_goals simp_wf
  all_goals try subst_vars
  all_goals try simp only [Statement.ret.sizeOf_spec,
    Statement.expression.sizeOf_spec, Statement.declaration.sizeOf_spec,
    Statement.assignment.sizeOf_spec, Statement.ifStmt.sizeOf_spec,
    Expression.operation.sizeOf_spec, Expression.function.sizeOf_spec,
    Expression.functionCall.sizeOf_spec, Expression.subscript.sizeOf_spec,
    Expression.property.sizeOf_spec, Expression.list.sizeOf_spec,
    List.cons.sizeOf_spec, Option.some.sizeOf_spec]
  all_goals omega

/-- Compiling a statement list only appends instructions; a nonempty
list appends at least one. -/
theorem compileStatements_append (b : CodeBuilder) (ss : List Statement)
    (b' : CodeBuilder) (h : compileStatements b ss = .ok b') :
    ∃ t, (ss ≠ [] → t ≠ []) ∧ b'.instructions = b.instructions ++ t := by
  cases ss with
  | nil =>
    rw [compileStatements] at h
    simp only [Except.ok.injEq] at h
    subst h
    exact ⟨[], by simp, by simp⟩
  | cons s ss =>
    rw [compileStatements] at h
    obtain ⟨b1, hs, h2⟩ := exceptBind_ok h
    obtain ⟨t1, ht1ne, ht1⟩ := compileStatement_append b s b1 hs
    obtain ⟨t2, _, ht2⟩ := compileStatements_append b1 ss b' h2
    refine ⟨t1 ++ t2, by simp [ht1ne], ?_⟩
    rw [ht2, ht1, List.append_assoc]
termination_by 2 * sizeOf ss
decreasing_by
  all_goals simp_wf
  all_goals try subst_vars
  all_goals try simp only [Statement.ret.sizeOf_spec,
    Statement.expression.sizeOf_spec, Statement.declaration.sizeOf_spec,
    Statement.assignment.sizeOf_spec, Statement.ifStmt.sizeOf_spec,
    Expression.operation.sizeOf_spec, Expression.function.sizeOf_spec,
    Expression.functionCall.sizeOf_spec, Expression.subscript.sizeOf_spec,
    Expression.property.sizeOf_spec, Expression.list.sizeOf_spec,
    List.cons.sizeOf_spec, Option.some.sizeOf_spec]
  all_goals omega

/-- Compiling an expression only appends instructions. -/
theorem compileExpression_append (b : CodeBuilder) (e : Expression)
    (b' : CodeBuilder) (h : compileExpression b e = .ok b') :
    ∃ t, b'.instructions = b.instructions ++ t := by
  cases e with
  | operation lhs op rhs =>
    rw [compileExpression] at h
    exact compileOperation_append b lhs op rhs b' h
  | integer n =>
    rw [compileExpression] at h
    simp only [Except.ok.injEq] at h
    subst h
    exact ⟨_, compileConstant_instructions ..⟩
  | float f =>
    rw [compileExpression] at h
    simp only [Except.ok.injEq] at h
    subst h
    exact ⟨_, compileConstant_instructions ..⟩
  | string s =>
    rw [compileExpression] at h
    simp only [Except.ok.injEq] at h
    subst h
    exact ⟨_, compileConstant_instructions ..⟩
  | function params body =>
    rw [compileExpression] at h
    obtain ⟨t, _, ht⟩ := compileFunction_append b params body b' h
    exact ⟨t, ht⟩
  | functionCall target args =>
    rw [compileExpression] at h
    exact compileCall_append b target args b' h
  | subscript e sub =>
    rw [compileExpression] at h
    obtain ⟨b1, h1, h2⟩ := exceptBind_ok h
    obtain ⟨b2, h3, h4⟩ := exceptBind_ok h2
    obtain ⟨t1, ht1⟩ := compileExpression_append b sub b1 h1
    obtain ⟨t2, ht2⟩ := compileExpression_append b1 e b2 h3
    simp only [Except.ok.injEq] at h4
    subst h4
    refine ⟨t1 ++ t2 ++ [.loadSubscript], ?_⟩
    rw [instA_instructions, ht2, ht1]
    simp [List.append_assoc]
  | property e name =>
    rw [compileExpression] at h
    obtain ⟨b1, h1, h2⟩ := exceptBind_ok h
    obtain ⟨t1, ht1⟩ := compileExpression_append b e b1 h1
    simp only [Except.ok.injEq] at h2
    subst h2
    refine ⟨t1 ++ [.loadProperty (useName b1 name).2], ?_⟩
    rw [instA_instructions, useName_instructions, ht1, List.append_assoc]
  | object items =>
    rw [compileExpression] at h
    exact absurd h (by simp)
  | list items =>
    rw [compileExpression] at h
    exact compileList_append b items b' h
  | identifier ident =>
    rw [compileExpression] at h
    simp only [Except.ok.injEq] at h
    subst h
    refine ⟨[.loadVariable (useName b ident).2], ?_⟩
    rw [instA_instructions, useName_instructions]
termination_by 2 * sizeOf e
decreasing_by
  all_goals simp_wf
  all_goals try subst_vars
  all_goals try simp only [Statement.ret.sizeOf_spec,
    Statement.expression.sizeOf_spec, Statement.declaration.sizeOf_spec,
    Statement.assignment.sizeOf_spec, Statement.ifStmt.sizeOf_spec,
    Expression.operation.sizeOf_spec, Expression.function.sizeOf_spec,
    Expression.functionCall.sizeOf_spec, Expression.subscript.sizeOf_spec,
    Expression.property.sizeOf_spec, Expression.list.sizeOf_spec,
    List.cons.sizeOf_spec, Option.some.sizeOf_spec]
  all_goals omega

/-- Compiling an expression list (in reverse) only appends
instructions. -/
theorem compileExpressionsRev_append (b : CodeBuilder)
    (es : List Expression) (b' : CodeBuilder)
    (h : compileExpressionsRev b es = .ok b') :
    ∃ t, b'.instructions = b.instructions ++ t := by
  cases es with
  | nil =>
    rw [compileExpressionsRev] at h
    simp only [Except.ok.injEq] at h
    subst h
    exact ⟨[], by simp⟩
  | cons x xs =>
    rw [compileExpressionsRev] at h
    obtain ⟨b1, h1, h2⟩ := exceptBind_ok h
    obtain ⟨t1, ht1⟩ := compileExpressionsRev_append b xs b1 h1
    obtain ⟨t2, ht2⟩ := compileExpression_append b1 x b' h2
    exact ⟨t1 ++ t2, by rw [ht2, ht1, List.append_assoc]⟩
termination_by 2 * sizeOf es
decreasing_by
  all_goals simp_wf
  all_goals try subst_vars
  all_goals try simp only [Statement.ret.sizeOf_spec,
    Statement.expression.sizeOf_spec, Statement.declaration.sizeOf_spec,
    Statement.assignment.sizeOf_spec, Statement.ifStmt.sizeOf_spec,
    Expression.operation.sizeOf_spec, Expression.function.sizeOf_spec,
    Expression.functionCall.sizeOf_spec, Expression.subscript.sizeOf_spec,
    Expression.property.sizeOf_spec, Expression.list.sizeOf_spec,
    List.cons.sizeOf_spec, Option.some.sizeOf_spec]
  all_goals omega

/-- Compiling a binary operation only appends instructions. -/
theorem compileOperation_append (b : CodeBuilder) (lhs : Expression)
    (op : Operator) (rhs : Expression) (b' : CodeBuilder)
    (h : compileOperation b lhs op rhs = .ok b') :
    ∃ t, b'.instructions = b.instructions ++ t := by
  rw [compileOperation] at h
  obtain ⟨b1, h1, h2⟩ := exceptBind_ok h
  obtain ⟨b2, h3, h4⟩ := exceptBind_ok h2
  obtain ⟨t1, ht1⟩ := compileExpression_append b rhs b1 h1
  obtain ⟨t2, ht2⟩ := compileExpression_append b1 lhs b2 h3
  simp only [Except.ok.injEq] at h4
  subst h4
  refine ⟨t1 ++ t2 ++ [operatorInstruction op], ?_⟩
  rw [instA_instructions, ht2, ht1]
  simp [List.append_assoc]
termination_by 2 * (sizeOf lhs + sizeOf rhs) + 1
decreasing_by all_goals (simp_wf; try omega)

/-- Compiling an assignment only appends instructions. -/
theorem compileAssignment_append (b : CodeBuilder)
    (target : AssignmentTarget) (source : Expression) (b' : CodeBuilder)
    (h : compileAssignment b target source = .ok b') :
    ∃ t, t ≠ [] ∧ b'.instructions = b.instructions ++ t := by
  rw [compileAssignment] at h
  obtain ⟨b1, h1, h2⟩ := exceptBind_ok h
  obtain ⟨t1, ht1⟩ := compileExpression_append b source b1 h1
  cases target with
  | identifier ident =>
    simp only [Except.ok.injEq] at h2
    subst h2
    refine ⟨t1 ++ [.storeVariable (useName b1 ident).2], by simp, ?_⟩
    rw [instA_instructions, useName_instructions, ht1, List.append_assoc]
  | property e propName =>
    obtain ⟨b2, h3, h4⟩ := exceptBind_ok h2
    obtain ⟨t2, ht2⟩ := compileExpression_append b1 e b2 h3
    simp only [Except.ok.injEq] at h4
    subst h4
    refine ⟨t1 ++ t2 ++ [.storeProperty (useName b2 propName).2],
      by simp, ?_⟩
    rw [instA_instructions, useName_instructions, ht2, ht1]
    simp [List.append_assoc]
  | subscript e sub =>
    obtain ⟨b2, h3, h4⟩ := exceptBind_ok h2
    obtain ⟨b3, h5, h6⟩ := exceptBind_ok h4
    obtain ⟨t2, ht2⟩ := compileExpression_append b1 sub b2 h3
    obtain ⟨t3, ht3⟩ := compileExpression_append b2 e b3 h5
    simp only [Except.ok.injEq] at h6
    subst h6
    refine ⟨t1 ++ t2 ++ t3 ++ [.storeSubscript], by simp, ?_⟩
    rw [instA_instructions, ht3, ht2, ht1]
    simp [List.append_assoc]

/-- Compiling a call only appends instructions. -/
theorem compileCall_append (b : CodeBuilder) (target : Expression)
    (args : List Expression) (b' : CodeBuilder)
    (h : compileCall b target args = .ok b') :
    ∃ t, b'.instructions = b.instructions ++ t := by
  rw [compileCall] at h
  obtain ⟨b1, h1, h2⟩ := exceptBind_ok h
  obtain ⟨b2, h3, h4⟩ := exceptBind_ok h2
  obtain ⟨t1, ht1⟩ := compileExpressionsRev_append b args b1 h1
  obtain ⟨t2, ht2⟩ := compileExpression_append b1 target b2 h3
  simp only [Except.ok.injEq] at h4
  subst h4
  refine ⟨t1 ++ t2 ++ [.call args.length], ?_⟩
  rw [instA_instructions, ht2, ht1]
  simp [List.append_assoc]
termination_by 2 * (sizeOf target + sizeOf args) + 1
decreasing_by all_goals (simp_wf; try omega)

/-- Compiling a list literal only appends instructions. -/
theorem compileList_append (b : CodeBuilder) (items : List Expression)
    (b' : CodeBuilder) (h : compileList b items = .ok b') :
    ∃ t, b'.instructions = b.instructions ++ t := by
  rw [compileList] at h
  obtain ⟨b1, h1, h2⟩ := exceptBind_ok h
  obtain ⟨t1, ht1⟩ := compileExpressionsRev_append b items b1 h1
  simp only [Except.ok.injEq] at h2
  subst h2
  refine ⟨t1 ++ [.createList items.length], ?_⟩
  rw [instA_instructions, ht1, List.append_assoc]
termination_by 2 * sizeOf items + 1
decreasing_by all_goals (simp_wf; try omega)

/-- The layout produced by `compile_if_statement`.  With no else-body the
patched `JumpFalse` targets the last instruction of the then-block
(`labelEnd - 1`); with an else-body it targets the skip `Jump` (the
instruction written immediately before the else-block), and that `Jump`
targets the last instruction of the else-block. -/
theorem compileIfStatement_layout (b : CodeBuilder) (cond : Expression)
    (body : List Statement) (elseBody : List Statement) (b' : CodeBuilder)
    (h : compileIfStatement b cond body elseBody = .ok b') :
    ∃ b1 t2, compileExpression b cond = .ok b1 ∧
      (∃ t1, b1.instructions = b.instructions ++ t1) ∧
      ((elseBody = [] ∧
        b'.instructions = b1.instructions
          ++ [.jumpFalse (b1.instructions.length + t2.length)] ++ t2) ∨
       (elseBody ≠ [] ∧ ∃ t3, t3 ≠ [] ∧
        b'.instructions = b1.instructions
          ++ [.jumpFalse (b1.instructions.length + 1 + t2.length)] ++ t2
          ++ [.jump (b1.instructions.length + 1 + t2.length + t3.length)]
          ++ t3)) := by
  rw [compileIfStatement] at h
  obtain ⟨b1, h1, h2⟩ := exceptBind_ok h
  obtain ⟨b3, h3, h4⟩ := exceptBind_ok h2
  obtain ⟨t2, _, ht2⟩ := compileStatements_append _ body b3 h3
  rw [instA_instructions] at ht2
  rw [instA_idx] at h4
  cases hel : elseBody.isEmpty with
  | true =>
    rw [hel] at h4
    simp only [if_true, Except.ok.injEq] at h4
    subst h4
    refine ⟨b1, t2, h1, compileExpression_append b cond b1 h1, .inl
      ⟨List.isEmpty_iff.mp hel, ?_⟩⟩
    show (b3.instructions.set b1.instructions.length
      (.jumpFalse (b3.instructions.length - 1))) = _
    have hL : b3.instructions.length - 1 =
        b1.instructions.length + t2.length := by
      rw [ht2]
      simp only [List.length_append, List.length_cons, List.length_nil]
      omega
    rw [hL]
    have hgroup : b3.instructions =
        b1.instructions ++ Instruction.jumpFalse 0 :: t2 := by
      rw [ht2]
      simp [List.append_assoc]
    rw [hgroup, set_at_eq _ _ _ _ _ rfl]
    simp [List.append_assoc]
  | false =>
    rw [hel] at h4
    simp only [if_false, Bool.false_eq_true] at h4
    obtain ⟨b5, h5, h6⟩ := exceptBind_ok h4
    obtain ⟨t3, ht3ne, ht3⟩ := compileStatements_append _ elseBody b5 h5
    rw [instA_instructions, ht2] at ht3
    simp only [Except.ok.injEq] at h6
    subst h6
    refine ⟨b1, t2, h1, compileExpression_append b cond b1 h1, .inr
      ⟨fun he => by simp [he] at hel,
       t3, ht3ne (fun he => by simp [he] at hel), ?_⟩⟩
    show ((b5.instructions.set b3.instructions.length
        (.jump (b5.instructions.length - 1))).set b1.instructions.length
        (.jumpFalse (b3.instructions.length + 1 - 1))) = _
    have e1 : b5.instructions.length - 1 =
        b1.instructions.length + 1 + t2.length + t3.length := by
      rw [ht3]
      simp only [List.length_append, List.length_cons, List.length_nil]
      omega
    have e2 : b3.instructions.length + 1 - 1 =
        b1.instructions.length + 1 + t2.length := by
      rw [ht2]
      simp only [List.length_append, List.length_cons, List.length_nil]
      omega
    have e3 : b3.instructions.length =
        (b1.instructions ++ Instruction.jumpFalse 0 :: t2).length := by
      rw [ht2]
      simp only [List.length_append, List.length_cons, List.length_nil]
      omega
    rw [e1, e2]
    have hgroup : b5.instructions =
        (b1.instructions ++ Instruction.jumpFalse 0 :: t2)
          ++ Instruction.jump 0 :: t3 := by
      rw [ht3]
      simp [List.append_assoc]
    rw [hgroup, set_at_eq _ _ _ _ _ e3]
    have hgroup2 : (b1.instructions ++ Instruction.jumpFalse 0 :: t2)
        ++ Instruction.jump (b1.instructions.length + 1 + t2.length
          + t3.length) :: t3 =
        b1.instructions ++ Instruction.jumpFalse 0 :: (t2
          ++ Instruction.jump (b1.instructions.length + 1 + t2.length
            + t3.length) :: t3) := by
      simp [List.append_assoc]
    rw [hgroup2, set_at_eq _ _ _ _ _ rfl]
    simp [List.append_assoc]
termination_by 2 * (sizeOf cond + sizeOf body + sizeOf elseBody) + 1
decreasing_by all_goals (simp_wf; try omega)

end

/-! Helper lemmas about the machine state. -/

theorem lt_of_getElem?_some {α : Type} {l : List α} {i : Nat} {a : α}
    (h : l[i]? = some a) : i < l.length := by
  by_contra hc
  rw [List.getElem?_eq_none (by omega)] at h
  cases h

/-- The type of a value depends only on the object heap. -/
theorem tyOf_objects_congr (st st' : MachState)
    (h : st.objects = st'.objects) : ∀ v, tyOf st v = tyOf st' v
  | .null => rfl
  | .object o => by rw [tyOf, tyOf, h]
  | .list _ => rfl
  | .string _ => rfl
  | .integer _ => rfl
  | .float _ => rfl
  | .bool _ => rfl
  | .code _ => rfl
  | .frame _ => rfl
  | .function _ => rfl
  | .bound o r => tyOf_objects_congr st st' h o
  | .native _ _ => rfl
  | .type _ => rfl

theorem tyOf_setCurrentFrame (st : MachState) (fr : FrameRec) (v : Value) :
    tyOf (setCurrentFrame st fr) v = tyOf st v :=
  tyOf_objects_congr (setCurrentFrame st fr) st rfl v

theorem currentFrame?_setCurrentFrame (st : MachState) (fr : FrameRec)
    (h : st.frame < st.frames.length) :
    (setCurrentFrame st fr).currentFrame? = some fr := by
  simp [setCurrentFrame, MachState.currentFrame?, List.getElem?_set_self, h]

theorem framePop_cons (st : MachState) (fr : FrameRec) (v : Value)
    (rest : List Value) (hfr : st.currentFrame? = some fr)
    (hst : fr.stack = v :: rest) :
    framePop st = .ok (v, setCurrentFrame st { fr with stack := rest }) := by
  simp [framePop, hfr, hst]

theorem framePush_eq (st : MachState) (fr : FrameRec) (v : Value)
    (hfr : st.currentFrame? = some fr) :
    framePush st v =
      .ok (setCurrentFrame st { fr with stack := v :: fr.stack }) := by
  simp [framePush, hfr]

/-- Setting the current frame twice keeps only the second record. -/
theorem setCurrentFrame_setCurrentFrame (st : MachState) (f g : FrameRec) :
    setCurrentFrame (setCurrentFrame st f) g = setCurrentFrame st g := by
  simp [setCurrentFrame, List.set_set]

/-- The protocol slot the `execute` match consults for each binary
arithmetic or comparison instruction (and `none` for every other
instruction). -/
def operationSelector : Instruction → Option (TypeDescr → Option Value)
  | .add => some (·.add)
  | .subtract => some (·.subtract)
  | .multiply => some (·.multiply)
  | .divide => some (·.divide)
  | .equals => some (·.equals)
  | .notEquals => some (·.not_equals)
  | .lessThan => some (·.less_than)
  | .greaterThan => some (·.greater_than)
  | .lessThanOrEqual => some (·.less_than_or_equal)
  | .greaterThanOrEqual => some (·.greater_than_or_equal)
  | _ => none

/-- The callable values, exactly those the default property lookup wraps
into a bound method. -/
def isCallable : Value → Bool
  | .function _ => true
  | .native _ _ => true
  | _ => false

def isObjectV : Value → Bool
  | .object _ => true
  | _ => false

/-- Rewrite every frame's caller link (leaving scopes, stacks and
enclosing links untouched); lexical resolution must not see the
difference. -/
def mapCallers (st : MachState) (g : FrameRec → Option Nat) : MachState :=
  { st with
    frames := st.frames.map (fun fr => { fr with calling_frame := g fr }) }

theorem resolveNameAux_mapCallers (st : MachState)
    (g : FrameRec → Option Nat) (name : String) :
    ∀ fuel cur, resolveNameAux (mapCallers st g) name fuel cur =
      resolveNameAux st name fuel cur := by
  intro fuel
  induction fuel with
  | zero => intro cur; cases cur <;> rfl
  | succ n ih =>
    intro cur
    cases cur with
    | none => rfl
    | some fid =>
      cases hm : st.frames[fid]? with
      | none =>
        have hmap : (mapCallers st g).frames[fid]? = none := by
          simp [mapCallers, List.getElem?_map, hm]
        simp [resolveNameAux, hmap, hm]
      | some fr =>
        have hmap : (mapCallers st g).frames[fid]? =
            some { fr with calling_frame := g fr } := by
          simp [mapCallers, List.getElem?_map, hm]
        simp [resolveNameAux, hmap, hm, ih]

/-- Caller links are invisible to `resolve_name`. -/
theorem resolveName_mapCallers (st : MachState) (g : FrameRec → Option Nat)
    (name : String) :
    resolveName (mapCallers st g) name = resolveName st name := by
  unfold resolveName
  rw [resolveNameAux_mapCallers]
  have h1 : (mapCallers st g).frames.length = st.frames.length := by
    simp [mapCallers]
  rw [h1]
  rfl

/-- The enclosing-frame chain starting at a frame id, materialized as a
list (bounded by the same fuel as `resolve_name`). -/
def outerChainAux (st : MachState) : Nat → Option Nat → List Nat
  | 0, _ => []
  | _, none => []
  | fuel + 1, some fid =>
    match st.frames[fid]? with
    | none => []
    | some fr => fid :: outerChainAux st fuel fr.outer_frame

def outerChain (st : MachState) : List Nat :=
  outerChainAux st (st.frames.length + 1) (some st.frame)

/-- Whether a frame id owns a binding for a name. -/
def frameOwns (st : MachState) (name : String) (fid : Nat) : Bool :=
  match st.frames[fid]? with
  | some fr => scopeContains fr.scope name
  | none => false

theorem resolveNameAux_eq_find (st : MachState) (name : String) :
    ∀ fuel cur, resolveNameAux st name fuel cur =
      (outerChainAux st fuel cur).find? (frameOwns st name) := by
  intro fuel
  induction fuel with
  | zero => intro cur; cases cur <;> rfl
  | succ n ih =>
    intro cur
    cases cur with
    | none => rfl
    | some fid =>
      cases hf : st.frames[fid]? with
      | none => simp [resolveNameAux, outerChainAux, hf]
      | some fr =>
        cases hc : scopeContains fr.scope name with
        | true =>
          simp [resolveNameAux, outerChainAux, hf, hc, List.find?,
            frameOwns]
        | false =>
          simp [resolveNameAux, outerChainAux, hf, hc, List.find?,
            frameOwns, ih]

/-- `resolve_name` returns the first frame of the enclosing chain that
owns the name. -/
theorem resolveName_eq_find (st : MachState) (name : String) :
    resolveName st name = (outerChain st).find? (frameOwns st name) :=
  resolveNameAux_eq_find st name _ _

@[simp] theorem exceptBind_ok_left {α β γ : Type} (a : α)
    (f : α → Except γ β) : (Except.ok a >>= f) = f a := rfl

@[simp] theorem exceptBind_error_left {α β γ : Type} (e : γ)
    (f : α → Except γ β) :
    ((Except.error e : Except γ α) >>= f) = .error e := rfl

/-- A state with the builtin type table and nothing else, used to
instantiate theorems at concrete inputs. -/
def sampleState : MachState :=
  { frames := [], frame := 0, objects := [], lists := [],
    types := builtinTypes, next_action := none }

/-- The `f64 as i64` cast always lands in the i64 range. -/
theorem F64_toI64_range (f : F64) : i64Min ≤ f.toI64 ∧ f.toI64 ≤ i64Max := by
  cases f with
  | nan => exact ⟨by decide, by decide⟩
  | inf b => cases b <;> exact ⟨by decide, by decide⟩
  | finite q =>
    by_cases h1 : ratTrunc q < i64Min
    · simp only [F64.toI64, if_pos h1]
      exact ⟨le_refl _, by decide⟩
    · by_cases h2 : i64Max < ratTrunc q
      · simp only [F64.toI64, if_neg h1, if_pos h2]
        exact ⟨by decide, le_refl _⟩
      · simp only [F64.toI64, if_neg h1, if_neg h2]
        omega

/-- A negative i64 reinterpreted as usize is at least 2^63. -/
theorem i64ToUsize_neg (n : Int) (h1 : i64Min ≤ n) (h2 : n < 0) :
    2 ^ 63 ≤ i64ToUsize n := by
  unfold i64ToUsize
  unfold i64Min at h1
  have e64 : (2 : Int) ^ 64 = 18446744073709551616 := by norm_num
  have e63i : (2 : Int) ^ 63 = 9223372036854775808 := by norm_num
  have e63n : (2 : Nat) ^ 63 = 9223372036854775808 := by norm_num
  rw [e64, e63n]
  rw [e63i] at h1
  omega

/-! Claim C8. -/

/-- C8 counterexample: the claim asserts that the root type's default
equality is reflexive on every Float, but for the value `Float(NaN)` the
`equals` slot returns false and `not_equals` returns true (Rust `f64`
equality is not reflexive at NaN). -/
theorem C8_counterexample :
    runNative .objectEquals [.float .nan, .float .nan] sampleState =
      .ok (.bool false, sampleState) ∧
    runNative .objectNotEquals [.float .nan, .float .nan] sampleState =
      .ok (.bool true, sampleState) :=
  ⟨rfl, rfl⟩

/-- C8 (amended): the root type carries the default `equals` and
`not_equals` slots, and for every value `v` that is a Bool, an Integer, a
String, or a Float other than NaN, the `equals` slot at `(v, v)` returns
true and the `not_equals` slot returns false. -/
theorem C8_equals_refl :
    object_ty.equals = some (.native .objectEquals (.exact 2)) ∧
    object_ty.not_equals = some (.native .objectNotEquals (.exact 2)) ∧
    ∀ (st : MachState) (v : Value),
      ((∃ b, v = .bool b) ∨ (∃ n, v = .integer n) ∨ (∃ s, v = .string s) ∨
       (∃ f, v = .float f ∧ f ≠ .nan)) →
      runNative .objectEquals [v, v] st = .ok (.bool true, st) ∧
      runNative .objectNotEquals [v, v] st = .ok (.bool false, st) := by
  refine ⟨rfl, rfl, ?_⟩
  have hrun : ∀ (v1 v2 : Value) (st : MachState),
      runNative .objectEquals [v1, v2] st =
        .ok (.bool (valueEquals v1 v2), st) := fun _ _ _ => rfl
  have hrunN : ∀ (v1 v2 : Value) (st : MachState),
      runNative .objectNotEquals [v1, v2] st =
        .ok (.bool (!valueEquals v1 v2), st) := fun _ _ _ => rfl
  rintro st v (⟨b, rfl⟩ | ⟨n, rfl⟩ | ⟨s, rfl⟩ | ⟨f, rfl, hf⟩)
  · rw [hrun, hrunN]
    simp [valueEquals]
  · rw [hrun, hrunN]
    simp [valueEquals]
  · rw [hrun, hrunN]
    simp [valueEquals]
  · cases f with
    | nan => exact absurd rfl hf
    | inf b =>
      rw [hrun, hrunN]
      simp [valueEquals, F64.feq]
    | finite q =>
      rw [hrun, hrunN]
      simp [valueEquals, F64.feq]

theorem C8_witness :
    runNative .objectEquals [.integer 7, .integer 7] sampleState =
      .ok (.bool true, sampleState) ∧
    runNative .objectNotEquals [.integer 7, .integer 7] sampleState =
      .ok (.bool false, sampleState) :=
  C8_equals_refl.2.2 sampleState (.integer 7) (.inr (.inl ⟨7, rfl⟩))

/-! Claim C10. -/

/-- C10: the root type's default equality coerces between Bool, Integer
and Float by zero-testing: `equals(Bool b, Integer n)` is
`b == (n != 0)` (so `Bool(true)` equals every nonzero integer),
`equals(Bool b, Float f)` is `b == (f != 0.0)`, and
`equals(Integer l, Float r)` converts `l` to a float and compares. -/
theorem C10_coercive_equality :
    (∀ (st : MachState) (b : Bool) (n : Int),
      runNative .objectEquals [.bool b, .integer n] st =
        .ok (.bool (b == (n != 0)), st)) ∧
    (∀ (st : MachState) (b : Bool) (f : F64),
      runNative .objectEquals [.bool b, .float f] st =
        .ok (.bool (b == f.neZero), st)) ∧
    (∀ (st : MachState) (l : Int) (r : F64),
      runNative .objectEquals [.integer l, .float r] st =
        .ok (.bool ((i64ToF64 l).feq r), st)) ∧
    (∀ n : Int, n ≠ 0 → valueEquals (.bool true) (.integer n) = true) := by
  refine ⟨fun st b n => rfl, fun st b f => rfl, fun st l r => rfl, ?_⟩
  intro n hn
  simp [valueEquals, hn]

theorem C10_witness :
    valueEquals (.bool true) (.integer 5) = true :=
  C10_coercive_equality.2.2.2 5 (by decide)

/-! Claim C9. -/

/-- A list heap with one two-element list, for instantiating the
subscript theorems. -/
def C9State : MachState :=
  { frames := [], frame := 0, objects := [],
    lists := [[.integer 10, .integer 20]],
    types := builtinTypes, next_action := none }

/-- C9: the list type's `get_subscript` and `set_subscript` accept Float
indices without a type mismatch: the index is the float cast to i64
(truncation toward zero, so index 1.9 reads element 1), then
reinterpreted as an unsigned machine index, and the operations fail only
when that index falls outside the list; a negative index (at least -1,
whose truncation is negative) lands at or above 2^63 after the unsigned
reinterpretation and therefore aborts. -/
theorem C9_float_subscript :
    (∀ (st : MachState) (lid : Nat) (xs : List Value) (f : F64),
      st.lists[lid]? = some xs →
      runNative .listGetSubscript [.list lid, .float f] st =
        (match xs[i64ToUsize f.toI64]? with
         | some w => .ok (w, st)
         | none => .error .indexOutOfBounds)) ∧
    (∀ (st : MachState) (lid : Nat) (xs : List Value) (f : F64) (v : Value),
      st.lists[lid]? = some xs →
      runNative .listSetSubscript [.list lid, .float f, v] st =
        (if i64ToUsize f.toI64 < xs.length then
          .ok (.null, { st with
            lists := st.lists.set lid (xs.set (i64ToUsize f.toI64) v) })
         else .error .indexOutOfBounds)) ∧
    (∀ q : ℚ, i64Min ≤ ratTrunc q → ratTrunc q ≤ i64Max →
      (F64.finite q).toI64 = ratTrunc q) ∧
    (ratTrunc (mkRat 19 10) = 1) ∧
    (∀ n : Int, i64Min ≤ n → n < 0 → 2 ^ 63 ≤ i64ToUsize n) ∧
    (∀ (st : MachState) (lid : Nat) (xs : List Value) (f : F64),
      st.lists[lid]? = some xs → xs.length ≤ 2 ^ 63 → f.toI64 < 0 →
      runNative .listGetSubscript [.list lid, .float f] st =
        .error .indexOutOfBounds) := by
  refine ⟨?_, ?_, ?_, ?_, i64ToUsize_neg, ?_⟩
  · intro st lid xs f h
    simp [runNative, Value.listV, Value.asIntV, h]
  · intro st lid xs f v h
    simp [runNative, Value.listV, Value.asIntV, h]
  · intro q h1 h2
    simp only [F64.toI64]
    rw [if_neg (by omega), if_neg (by omega)]
  · decide
  · intro st lid xs f h hlen hneg
    have hr := F64_toI64_range f
    have hbig := i64ToUsize_neg f.toI64 hr.1 hneg
    simp [runNative, Value.listV, Value.asIntV, h]
    rw [List.getElem?_eq_none (by omega)]

theorem C9_witness :
    runNative .listGetSubscript [.list 0, .float (.finite (mkRat 19 10))]
      C9State =
      (match ([.integer 10, .integer 20] :
          List Value)[i64ToUsize ((F64.finite (mkRat 19 10)).toI64)]? with
       | some w => .ok (w, C9State)
       | none => .error .indexOutOfBounds) :=
  C9_float_subscript.1 C9State 0 [.integer 10, .integer 20]
    (.finite (mkRat 19 10)) rfl

/-! Claim C7. -/

/-- C7: invoking a user function checks the argument count against the
declared parameter count exactly and panics on mismatch; invoking a
native validates the count against its arity pattern (`Any` accepts
everything, `Exact`, `Min`, `Max` and `Range` as named) and panics on
violation; in particular `Exact k` invoked with `k - 1` or `k + 1`
arguments is a fatal error. -/
theorem C7_arity_checks :
    (∀ (fuel : Nat) (st : MachState) (fn : Func) (args : List Value),
      fn.code.parameters ≤ fn.code.names.length →
      args.length ≠ fn.code.parameters →
      callValue (fuel + 1) st (.function fn) args = .error .arityMismatch) ∧
    (∀ (fuel : Nat) (st : MachState) (nid : NativeId) (pat : ArgPattern)
      (args : List Value), arityViolated pat args.length = true →
      callValue (fuel + 1) st (.native nid pat) args =
        .error .arityMismatch) ∧
    (∀ n : Nat, arityViolated .any n = false) ∧
    (∀ k n : Nat, arityViolated (.exact k) n = (k != n)) ∧
    (∀ m n : Nat, arityViolated (.min m) n = decide (n < m)) ∧
    (∀ m n : Nat, arityViolated (.max m) n = decide (m < n)) ∧
    (∀ lo hi n : Nat, arityViolated (.range lo hi) n =
      (decide (n < lo) || decide (hi < n))) ∧
    (∀ (fuel : Nat) (st : MachState) (nid : NativeId) (k : Nat)
      (args : List Value), 1 ≤ k →
      (args.length = k - 1 ∨ args.length = k + 1) →
      callValue (fuel + 1) st (.native nid (.exact k)) args =
        .error .arityMismatch) := by
  refine ⟨?_, ?_, fun n => rfl, fun k n => rfl, fun m n => rfl,
    fun m n => rfl, fun lo hi n => rfl, ?_⟩
  · intro fuel st fn args h1 h2
    simp [callValue]
    omega
  · intro fuel st nid pat args h
    simp [callValue, h]
  · intro fuel st nid k args hk hor
    have hb : arityViolated (.exact k) args.length = true := by
      simp [arityViolated]
      omega
    simp [callValue, hb]

theorem C7_witness :
    callValue 1 sampleState (.function (.mk (.mk [] [] ["x"] 1) 0)) [] =
      .error .arityMismatch ∧
    callValue 1 sampleState (.native .printFn (.exact 2)) [.null] =
      .error .arityMismatch ∧
    callValue 1 sampleState (.native .printFn (.exact 2))
      [.null, .null, .null] = .error .arityMismatch :=
  ⟨C7_arity_checks.1 0 sampleState (.mk (.mk [] [] ["x"] 1) 0) []
      (by decide) (by decide),
   C7_arity_checks.2.2.2.2.2.2.2 0 sampleState .printFn 2 [.null]
      (by decide) (.inl rfl),
   C7_arity_checks.2.2.2.2.2.2.2 0 sampleState .printFn 2
      [.null, .null, .null] (by decide) (.inr rfl)⟩

/-! Claim C6. -/

/-- C6: the default `get_property` of the root type first consults the
instance property table of an `Object` target, returning a Bound
wrapping for callables (Function or Native) and the raw value otherwise;
on a miss, or for any non-Object target, it walks the target type's
property table and then the base chain, with the same bound form for
callables; reaching the root without a hit is a fatal error.  Invoking a
Bound value prepends the remembered receiver to the argument list and
invokes the underlying callable. -/
theorem C6_property_lookup :
    (∀ (res target : Value), isCallable res = true →
      bindCallable res target = .bound res target) ∧
    (∀ (res target : Value), isCallable res = false →
      bindCallable res target = res) ∧
    (∀ (st : MachState) (oid : Nat) (orec : ObjectRec) (prop : String)
      (res : Value), st.objects[oid]? = some orec →
      scopeGet orec.properties prop = some res →
      getPropertyFn st (.object oid) prop =
        .ok (bindCallable res (.object oid))) ∧
    (∀ (st : MachState) (oid : Nat) (orec : ObjectRec) (prop : String),
      st.objects[oid]? = some orec →
      scopeGet orec.properties prop = none →
      getPropertyFn st (.object oid) prop =
        getPropertyChain st.types (.object oid) prop
          (st.types.length + 1) orec.ty) ∧
    (∀ (st : MachState) (target : Value) (prop : String),
      isObjectV target = false →
      getPropertyFn st target prop =
        getPropertyChain st.types target prop (st.types.length + 1)
          (tyOf st target)) ∧
    (∀ (env : List TypeDescr) (target : Value) (prop : String)
      (fuel tyId : Nat) (ty : TypeDescr) (res : Value),
      env[tyId]? = some ty → scopeGet ty.properties prop = some res →
      getPropertyChain env target prop (fuel + 1) tyId =
        .ok (bindCallable res target)) ∧
    (∀ (env : List TypeDescr) (target : Value) (prop : String)
      (fuel tyId : Nat) (ty : TypeDescr) (bid : Nat),
      env[tyId]? = some ty → scopeGet ty.properties prop = none →
      ty.base = some bid →
      getPropertyChain env target prop (fuel + 1) tyId =
        getPropertyChain env target prop fuel bid) ∧
    (∀ (env : List TypeDescr) (target : Value) (prop : String)
      (fuel tyId : Nat) (ty : TypeDescr),
      env[tyId]? = some ty → scopeGet ty.properties prop = none →
      ty.base = none →
      getPropertyChain env target prop (fuel + 1) tyId =
        .error .propertyMissing) ∧
    (∀ (fuel : Nat) (st : MachState) (o r : Value) (args : List Value),
      callValue (fuel + 1) st (.bound o r) args =
        callValue fuel st o (r :: args)) := by
  refine ⟨?_, ?_, ?_, ?_, ?_, ?_, ?_, ?_, fun fuel st o r args => rfl⟩
  · intro res target h
    cases res <;> simp_all [isCallable, bindCallable]
  · intro res target h
    cases res <;> simp_all [isCallable, bindCallable]
  · intro st oid orec prop res h1 h2
    simp [getPropertyFn, h1, h2]
  · intro st oid orec prop h1 h2
    simp [getPropertyFn, h1, h2, tyOf]
  · intro st target prop h
    cases target <;> simp_all [isObjectV, getPropertyFn]
  · intro env target prop fuel tyId ty res h1 h2
    simp [getPropertyChain, h1, h2]
  · intro env target prop fuel tyId ty bid h1 h2 h3
    simp [getPropertyChain, h1, h2, h3]
  · intro env target prop fuel tyId ty h1 h2 h3
    simp [getPropertyChain, h1, h2, h3]

/-- An object heap with one object of the root type holding a native
property, for instantiating the lookup theorems. -/
def C6State : MachState :=
  { frames := [], frame := 0,
    objects := [{ ty := objectTypeId,
                  properties := [("m", .native .listPush (.exact 2))] }],
    lists := [], types := builtinTypes, next_action := none }

theorem C6_witness :
    getPropertyFn C6State (.object 0) "m" =
      .ok (bindCallable (.native .listPush (.exact 2)) (.object 0)) ∧
    callValue 1 sampleState (.bound (.native .intAdd (.exact 2))
      (.integer 1)) [.integer 2] =
      callValue 0 sampleState (.native .intAdd (.exact 2))
        [.integer 1, .integer 2] :=
  ⟨C6_property_lookup.2.2.1 C6State 0
      { ty := objectTypeId,
        properties := [("m", .native .listPush (.exact 2))] } "m"
      (.native .listPush (.exact 2)) rfl rfl,
   C6_property_lookup.2.2.2.2.2.2.2.2 0 sampleState
      (.native .intAdd (.exact 2)) (.integer 1) [.integer 2]⟩

/-! Claim C1. -/

/-- C1: for each binary arithmetic or comparison instruction, the
compiler emits the right-hand operand's code before the left-hand
operand's (so the left operand sits on top of the stack); the
interpreter's shared operation handler pops the left operand first and
the right operand second, looks the operator slot up on the right
operand's type chain, and calls it with the argument list
`[lhs, rhs]`; a chain without the slot is a fatal error; and `execute`
routes each of the ten operation instructions to that handler with its
matching slot selector. -/
theorem C1_binary_dispatch :
    (∀ (b : CodeBuilder) (lhs : Expression) (op : Operator)
      (rhs : Expression) (b' : CodeBuilder),
      compileOperation b lhs op rhs = .ok b' →
      ∃ bR bL, compileExpression b rhs = .ok bR ∧
        compileExpression bR lhs = .ok bL ∧
        (∃ tR, bR.instructions = b.instructions ++ tR) ∧
        (∃ tL, bL.instructions = bR.instructions ++ tL) ∧
        b'.instructions = bL.instructions ++ [operatorInstruction op]) ∧
    (∀ (fuel : Nat) (sel : TypeDescr → Option Value) (st : MachState)
      (fr : FrameRec) (v1 v2 : Value) (rest : List Value),
      st.currentFrame? = some fr → fr.stack = v1 :: v2 :: rest →
      execOperation fuel sel st =
        (match getNativeProp st.types sel (tyOf st v2) with
         | some p =>
           callValue fuel (setCurrentFrame st { fr with stack := rest }) p
             [v1, v2]
         | none => .error .protocolMissing)) ∧
    (∀ (fuel : Nat) (st : MachState) (i : Instruction)
      (sel : TypeDescr → Option Value),
      currentInstruction st = .ok i → operationSelector i = some sel →
      execute fuel st =
        stepOfExcept (execOperation fuel sel st >>= advancePC)) := by
  refine ⟨?_, ?_, ?_⟩
  · intro b lhs op rhs b' h
    rw [compileOperation] at h
    obtain ⟨bR, h1, h2⟩ := exceptBind_ok h
    obtain ⟨bL, h3, h4⟩ := exceptBind_ok h2
    simp only [Except.ok.injEq] at h4
    subst h4
    exact ⟨bR, bL, h1, h3, compileExpression_append b rhs bR h1,
      compileExpression_append bR lhs bL h3, instA_instructions ..⟩
  · intro fuel sel st fr v1 v2 rest hfr hst
    have hlt : st.frame < st.frames.length := lt_of_getElem?_some hfr
    have h1 : framePop st =
        .ok (v1, setCurrentFrame st { fr with stack := v2 :: rest }) :=
      framePop_cons st fr v1 (v2 :: rest) hfr hst
    have h2 : framePop (setCurrentFrame st { fr with stack := v2 :: rest })
        = .ok (v2, setCurrentFrame st { fr with stack := rest }) := by
      rw [framePop_cons (setCurrentFrame st { fr with stack := v2 :: rest })
        { fr with stack := v2 :: rest } v2 rest
        (currentFrame?_setCurrentFrame st _ hlt) rfl]
      rw [setCurrentFrame_setCurrentFrame]
    rw [execOperation, h1]
    simp only [exceptBind_ok_left, h2]
    rw [show (setCurrentFrame st { fr with stack := rest }).types =
      st.types from rfl]
    rw [tyOf_setCurrentFrame]
  · intro fuel st i sel hi hsel
    cases i <;> simp_all [execute, operationSelector]

/-- A one-frame state about to execute `Add` on the operand stack
`[1, 2]` (1 on top). -/
def C1Frame : FrameRec :=
  { instruction_count := 0, code := .mk [.add] [] [] 0, scope := [],
    calling_frame := none, outer_frame := none,
    stack := [.integer 1, .integer 2] }

def C1State : MachState :=
  { frames := [C1Frame], frame := 0, objects := [], lists := [],
    types := builtinTypes, next_action := none }

theorem C1_witness :
    (∃ bR bL, compileExpression (newBuilder 0) (.integer 4) = .ok bR ∧
      compileExpression bR (.integer 2) = .ok bL ∧
      (∃ tR, bR.instructions = (newBuilder 0).instructions ++ tR) ∧
      (∃ tL, bL.instructions = bR.instructions ++ tL) ∧
      ({ instructions := [.loadConstant 0, .loadConstant 1, .add],
         constants := [.integer 4, .integer 2], names := [],
         parameters := 0 } : CodeBuilder).instructions =
        bL.instructions ++ [operatorInstruction .add]) ∧
    execOperation 1 (fun t => t.add) C1State =
      (match getNativeProp C1State.types (fun t => t.add)
          (tyOf C1State (.integer 2)) with
       | some p => callValue 1 (setCurrentFrame C1State
           { C1Frame with stack := [] }) p [.integer 1, .integer 2]
       | none => .error .protocolMissing) ∧
    execute 1 C1State =
      stepOfExcept (execOperation 1 (fun t => t.add) C1State >>=
        advancePC) :=
  ⟨C1_binary_dispatch.1 (newBuilder 0) (.integer 2) .add (.integer 4)
     { instructions := [.loadConstant 0, .loadConstant 1, .add],
       constants := [.integer 4, .integer 2], names := [],
       parameters := 0 }
     (by simp [compileOperation, compileExpression, compileConstant,
        useConstant, constantEq, instA, newBuilder, List.findIdx?_nil,
        List.findIdx?_cons, operatorInstruction]),
   C1_binary_dispatch.2.1 1 (fun t => t.add) C1State C1Frame (.integer 1)
     (.integer 2) [] rfl rfl,
   C1_binary_dispatch.2.2 1 C1State .add (fun t => t.add) rfl rfl⟩

/-! Claim C2. -/

/-- C2: `LoadVariable(n)` first consults the builtins registry (which
contains only `print`), pushing the builtin value on a hit; otherwise it
walks the enclosing-frame chain from the current frame and pushes the
binding of the first frame owning the name; if no frame owns it, fatal
error.  `resolve_name` is exactly the first hit along the materialized
enclosing chain, and rewriting every caller link arbitrarily does not
change its result: the caller chain is never consulted. -/
theorem C2_variable_resolution :
    (∀ (st : MachState) (namei : Nat) (name : String) (bv : Value),
      currentName st namei = .ok name → builtinsResolve name = some bv →
      execLoadVariable st namei = framePush st bv) ∧
    (∀ (st : MachState) (namei : Nat) (name : String) (fid : Nat)
      (fr : FrameRec) (v : Value),
      currentName st namei = .ok name → builtinsResolve name = none →
      resolveName st name = some fid → st.frames[fid]? = some fr →
      scopeGet fr.scope name = some v →
      execLoadVariable st namei = framePush st v) ∧
    (∀ (st : MachState) (namei : Nat) (name : String),
      currentName st namei = .ok name → builtinsResolve name = none →
      resolveName st name = none →
      execLoadVariable st namei = .error .nameUnresolved) ∧
    (builtinsResolve "print" = some (.native .printFn .any)) ∧
    (∀ name : String, name ≠ "print" → builtinsResolve name = none) ∧
    (∀ (st : MachState) (name : String),
      resolveName st name = (outerChain st).find? (frameOwns st name)) ∧
    (∀ (st : MachState) (g : FrameRec → Option Nat) (name : String),
      resolveName (mapCallers st g) name = resolveName st name) := by
  refine ⟨?_, ?_, ?_, rfl, ?_, resolveName_eq_find, resolveName_mapCallers⟩
  · intro st namei name bv h1 h2
    simp [execLoadVariable, h1, h2]
  · intro st namei name fid fr v h1 h2 h3 h4 h5
    simp [execLoadVariable, h1, h2, h3, h4, h5]
  · intro st namei name h1 h2 h3
    simp [execLoadVariable, h1, h2, h3]
  · intro name hne
    simp [builtinsResolve, hne]

/-- A one-frame state whose name pool holds a local name and the builtin
name, with a binding for the local. -/
def C2Frame : FrameRec :=
  { instruction_count := 0,
    code := .mk [.loadVariable 0] [] ["x", "print"] 0,
    scope := [("x", .integer 42)], calling_frame := none,
    outer_frame := none, stack := [] }

def C2State : MachState :=
  { frames := [C2Frame], frame := 0, objects := [], lists := [],
    types := builtinTypes, next_action := none }

theorem C2_witness :
    execLoadVariable C2State 0 = framePush C2State (.integer 42) ∧
    execLoadVariable C2State 1 =
      framePush C2State (.native .printFn .any) :=
  ⟨C2_variable_resolution.2.1 C2State 0 "x" 0 C2Frame (.integer 42) rfl
     rfl rfl rfl rfl,
   C2_variable_resolution.1 C2State 1 "print" (.native .printFn .any) rfl
     rfl⟩

/-! Claim C4. -/

/-- C4: executing `Return` pops exactly one value off the current
frame's operand stack and records a pending return; the next step
switches the active frame to the caller and pushes the returned value
on the caller's operand stack, growing it by exactly one; a pending
return in a frame without a caller exits the process with code 0. -/
theorem C4_return_discipline :
    (∀ (fuel : Nat) (st : MachState) (fr : FrameRec) (v : Value)
      (rest : List Value),
      st.next_action = none → st.currentFrame? = some fr →
      fr.code.instructions[fr.instruction_count]? = some .ret →
      fr.stack = v :: rest →
      step fuel st = .next
        { st with
          frames := st.frames.set st.frame
            { fr with
                stack := rest,
                instruction_count := fr.instruction_count + 1 },
          next_action := some (.ret v) }) ∧
    (∀ (fuel : Nat) (st : MachState) (fr : FrameRec) (v : Value)
      (c : Nat) (cfr : FrameRec),
      st.next_action = some (.ret v) → st.currentFrame? = some fr →
      fr.calling_frame = some c → c ≠ st.frame →
      st.frames[c]? = some cfr →
      step fuel st = .next
        { st with
          frames := st.frames.set c { cfr with stack := v :: cfr.stack },
          frame := c, next_action := none } ∧
      (v :: cfr.stack).length = cfr.stack.length + 1) ∧
    (∀ (fuel : Nat) (st : MachState) (fr : FrameRec) (v : Value),
      st.next_action = some (.ret v) → st.currentFrame? = some fr →
      fr.calling_frame = none → step fuel st = .exited 0) := by
  refine ⟨?_, ?_, ?_⟩
  · intro fuel st fr v rest hact hfr hinstr hst
    have hlt : st.frame < st.frames.length := lt_of_getElem?_some hfr
    have hci : currentInstruction st = .ok .ret := by
      simp [currentInstruction, hfr, hinstr]
    have hpop := framePop_cons st fr v rest hfr hst
    have hret : execReturn st =
        .ok { (setCurrentFrame st { fr with stack := rest }) with
              next_action := some (.ret v) } := by
      rw [execReturn, hpop]
      rfl
    have hadv : advancePC
        { (setCurrentFrame st { fr with stack := rest }) with
          next_action := some (.ret v) } =
        .ok { st with
          frames := st.frames.set st.frame
            { fr with
                stack := rest,
                instruction_count := fr.instruction_count + 1 },
          next_action := some (.ret v) } := by
      rw [advancePC]
      rw [show ({ (setCurrentFrame st { fr with stack := rest }) with
          next_action := some (.ret v) } : MachState).currentFrame? =
          some { fr with stack := rest } from by
        simp [setCurrentFrame, MachState.currentFrame?,
          List.getElem?_set_self, hlt]]
      simp [setCurrentFrame, List.set_set]
    simp only [step, hact, execute, hci]
    simp only [hret, exceptBind_ok_left, hadv]
    rfl
  · intro fuel st fr v c cfr hact hfr hcall hne hcfr
    refine ⟨?_, by simp⟩
    have hp := framePush_eq { st with frame := c, next_action := none } cfr
      v (by simpa [MachState.currentFrame?] using hcfr)
    simp only [step, hact, hfr, hcall, hp]
    rfl
  · intro fuel st fr v hact hfr hcall
    simp only [step, hact, hfr, hcall]

/-- A two-frame state: frame 1 is about to execute `Return` with one
value on its stack, and its caller is frame 0. -/
def C4MainFrame : FrameRec :=
  { instruction_count := 0, code := .mk [] [] [] 0, scope := [],
    calling_frame := none, outer_frame := none, stack := [] }

def C4CalleeFrame : FrameRec :=
  { instruction_count := 0, code := .mk [.ret] [] [] 0, scope := [],
    calling_frame := some 0, outer_frame := none,
    stack := [.integer 7] }

def C4StateA : MachState :=
  { frames := [C4MainFrame, C4CalleeFrame], frame := 1, objects := [],
    lists := [], types := builtinTypes, next_action := none }

def C4StateB : MachState :=
  { frames := [C4MainFrame, C4CalleeFrame], frame := 1, objects := [],
    lists := [], types := builtinTypes,
    next_action := some (.ret (.integer 7)) }

def C4StateC : MachState :=
  { frames := [C4MainFrame], frame := 0, objects := [], lists := [],
    types := builtinTypes, next_action := some (.ret (.integer 7)) }

theorem C4_witness :
    step 1 C4StateA = .next
      { C4StateA with
        frames := C4StateA.frames.set C4StateA.frame
          { C4CalleeFrame with
            stack := [],
            instruction_count := C4CalleeFrame.instruction_count + 1 },
        next_action := some (.ret (.integer 7)) } ∧
    (step 1 C4StateB = .next
      { C4StateB with
        frames := C4StateB.frames.set 0
          { C4MainFrame with stack := .integer 7 :: C4MainFrame.stack },
        frame := 0, next_action := none } ∧
      (Value.integer 7 :: C4MainFrame.stack).length =
        C4MainFrame.stack.length + 1) ∧
    step 1 C4StateC = .exited 0 :=
  ⟨C4_return_discipline.1 1 C4StateA C4CalleeFrame (.integer 7) [] rfl
     rfl rfl rfl,
   C4_return_discipline.2.1 1 C4StateB C4CalleeFrame (.integer 7) 0
     C4MainFrame rfl rfl rfl (by decide) rfl,
   C4_return_discipline.2.2 1 C4StateC C4MainFrame (.integer 7) rfl rfl
     rfl⟩

/-! Claim C5. -/

/-- C5: a subscript-assignment compiles the value expression first, then
the subscript, then the object, so the stack before `StoreSubscript`
holds the value deepest and the object on top; `StoreSubscript` pops the
object, then the subscript, then the value, and dispatches the
`set_subscript` slot of the object's type chain with `[obj, k, v]`.  A
property-assignment likewise compiles the object after the value, and
`StoreProperty` pops the object first and dispatches `set_property` with
`[obj, name, v]`. -/
theorem C5_store_stack_layout :
    (∀ (b : CodeBuilder) (objE subE src : Expression) (b' : CodeBuilder),
      compileAssignment b (.subscript objE subE) src = .ok b' →
      ∃ bV bS bO, compileExpression b src = .ok bV ∧
        compileExpression bV subE = .ok bS ∧
        compileExpression bS objE = .ok bO ∧
        (∃ tV, bV.instructions = b.instructions ++ tV) ∧
        (∃ tS, bS.instructions = bV.instructions ++ tS) ∧
        (∃ tO, bO.instructions = bS.instructions ++ tO) ∧
        b'.instructions = bO.instructions ++ [.storeSubscript]) ∧
    (∀ (b : CodeBuilder) (objE : Expression) (propName : String)
      (src : Expression) (b' : CodeBuilder),
      compileAssignment b (.property objE propName) src = .ok b' →
      ∃ bV bO, compileExpression b src = .ok bV ∧
        compileExpression bV objE = .ok bO ∧
        (∃ tV, bV.instructions = b.instructions ++ tV) ∧
        (∃ tO, bO.instructions = bV.instructions ++ tO) ∧
        b'.instructions =
          bO.instructions ++ [.storeProperty (useName bO propName).2]) ∧
    (∀ (fuel : Nat) (st : MachState) (fr : FrameRec) (o s v : Value)
      (rest : List Value),
      st.currentFrame? = some fr → fr.stack = o :: s :: v :: rest →
      execStoreSubscript fuel st =
        (match getNativeProp st.types (fun t => t.set_subscript)
            (tyOf st o) with
         | some p => callValue fuel
             (setCurrentFrame st { fr with stack := rest }) p [o, s, v]
         | none => .error .protocolMissing)) ∧
    (∀ (fuel : Nat) (st : MachState) (fr : FrameRec) (namei : Nat)
      (prop : String) (o v : Value) (rest : List Value),
      st.currentFrame? = some fr → fr.stack = o :: v :: rest →
      fr.code.names[namei]? = some prop →
      execStoreProperty fuel st namei =
        (match getNativeProp st.types (fun t => t.set_property)
            (tyOf st o) with
         | some p => callValue fuel
             (setCurrentFrame st { fr with stack := rest }) p
             [o, .string prop, v]
         | none => .error .protocolMissing)) := by
  refine ⟨?_, ?_, ?_, ?_⟩
  · intro b objE subE src b' h
    rw [compileAssignment] at h
    obtain ⟨bV, h1, h2⟩ := exceptBind_ok h
    obtain ⟨bS, h3, h4⟩ := exceptBind_ok h2
    obtain ⟨bO, h5, h6⟩ := exceptBind_ok h4
    simp only [Except.ok.injEq] at h6
    subst h6
    exact ⟨bV, bS, bO, h1, h3, h5, compileExpression_append b src bV h1,
      compileExpression_append bV subE bS h3,
      compileExpression_append bS objE bO h5, instA_instructions ..⟩
  · intro b objE propName src b' h
    rw [compileAssignment] at h
    obtain ⟨bV, h1, h2⟩ := exceptBind_ok h
    obtain ⟨bO, h3, h4⟩ := exceptBind_ok h2
    simp only [Except.ok.injEq] at h4
    subst h4
    refine ⟨bV, bO, h1, h3, compileExpression_append b src bV h1,
      compileExpression_append bV objE bO h3, ?_⟩
    rw [instA_instructions, useName_instructions]
  · intro fuel st fr o s v rest hfr hst
    have hlt : st.frame < st.frames.length := lt_of_getElem?_some hfr
    have h1 : framePop st =
        .ok (o, setCurrentFrame st { fr with stack := s :: v :: rest }) :=
      framePop_cons st fr o (s :: v :: rest) hfr hst
    have h2 : framePop
        (setCurrentFrame st { fr with stack := s :: v :: rest }) =
        .ok (s, setCurrentFrame st { fr with stack := v :: rest }) := by
      rw [framePop_cons
        (setCurrentFrame st { fr with stack := s :: v :: rest })
        { fr with stack := s :: v :: rest } s (v :: rest)
        (currentFrame?_setCurrentFrame st _ hlt) rfl]
      rw [setCurrentFrame_setCurrentFrame]
    have h3 : framePop
        (setCurrentFrame st { fr with stack := v :: rest }) =
        .ok (v, setCurrentFrame st { fr with stack := rest }) := by
      rw [framePop_cons
        (setCurrentFrame st { fr with stack := v :: rest })
        { fr with stack := v :: rest } v rest
        (currentFrame?_setCurrentFrame st _ hlt) rfl]
      rw [setCurrentFrame_setCurrentFrame]
    rw [execStoreSubscript, h1]
    simp only [exceptBind_ok_left, h2, h3]
    rw [show (setCurrentFrame st { fr with stack := rest }).types =
      st.types from rfl]
    rw [tyOf_setCurrentFrame]
  · intro fuel st fr namei prop o v rest hfr hst hname
    have hlt : st.frame < st.frames.length := lt_of_getElem?_some hfr
    have h1 : framePop st =
        .ok (o, setCurrentFrame st { fr with stack := v :: rest }) :=
      framePop_cons st fr o (v :: rest) hfr hst
    have hn : currentName
        (setCurrentFrame st { fr with stack := v :: rest }) namei =
        .ok prop := by
      rw [currentName, currentFrame?_setCurrentFrame st _ hlt]
      show (match ({ fr with stack := v :: rest } :
          FrameRec).code.names[namei]? with
        | some n => Except.ok n
        | none => Except.error RtError.poolIndex) = _
      rw [show ({ fr with stack := v :: rest } : FrameRec).code =
        fr.code from rfl]
      rw [hname]
    have h2 : framePop
        (setCurrentFrame st { fr with stack := v :: rest }) =
        .ok (v, setCurrentFrame st { fr with stack := rest }) := by
      rw [framePop_cons
        (setCurrentFrame st { fr with stack := v :: rest })
        { fr with stack := v :: rest } v rest
        (currentFrame?_setCurrentFrame st _ hlt) rfl]
      rw [setCurrentFrame_setCurrentFrame]
    rw [execStoreProperty, h1]
    simp only [exceptBind_ok_left, hn, h2]
    rw [show (setCurrentFrame st { fr with stack := rest }).types =
      st.types from rfl]
    rw [tyOf_setCurrentFrame]

/-- A one-frame state whose stack holds three values (object on top)
and whose name pool holds a property name. -/
def C5Frame : FrameRec :=
  { instruction_count := 0, code := .mk [.storeSubscript] [] ["p"] 0,
    scope := [], calling_frame := none, outer_frame := none,
    stack := [.null, .integer 1, .integer 7] }

def C5State : MachState :=
  { frames := [C5Frame], frame := 0, objects := [], lists := [],
    types := builtinTypes, next_action := none }

theorem C5_witness :
    (∃ bV bS bO,
      compileExpression (newBuilder 0) (.integer 1) = .ok bV ∧
      compileExpression bV (.integer 0) = .ok bS ∧
      compileExpression bS (.identifier "a") = .ok bO ∧
      (∃ tV, bV.instructions = (newBuilder 0).instructions ++ tV) ∧
      (∃ tS, bS.instructions = bV.instructions ++ tS) ∧
      (∃ tO, bO.instructions = bS.instructions ++ tO) ∧
      ({ instructions := [.loadConstant 0, .loadConstant 1,
           .loadVariable 0, .storeSubscript],
         constants := [.integer 1, .integer 0], names := ["a"],
         parameters := 0 } : CodeBuilder).instructions =
        bO.instructions ++ [.storeSubscript]) ∧
    (∃ bV bO,
      compileExpression (newBuilder 0) (.integer 1) = .ok bV ∧
      compileExpression bV (.identifier "a") = .ok bO ∧
      (∃ tV, bV.instructions = (newBuilder 0).instructions ++ tV) ∧
      (∃ tO, bO.instructions = bV.instructions ++ tO) ∧
      ({ instructions := [.loadConstant 0, .loadVariable 0,
           .storeProperty 1],
         constants := [.integer 1], names := ["a", "p"],
         parameters := 0 } : CodeBuilder).instructions =
        bO.instructions ++ [.storeProperty (useName bO "p").2]) ∧
    execStoreSubscript 1 C5State =
      (match getNativeProp C5State.types (fun t => t.set_subscript)
          (tyOf C5State .null) with
       | some p => callValue 1 (setCurrentFrame C5State
           { C5Frame with stack := [] }) p
           [.null, .integer 1, .integer 7]
       | none => .error .protocolMissing) ∧
    execStoreProperty 1 C5State 0 =
      (match getNativeProp C5State.types (fun t => t.set_property)
          (tyOf C5State .null) with
       | some p => callValue 1 (setCurrentFrame C5State
           { C5Frame with stack := [.integer 7] }) p
           [.null, .string "p", .integer 1]
       | none => .error .protocolMissing) :=
  ⟨C5_store_stack_layout.1 (newBuilder 0) (.identifier "a") (.integer 0)
     (.integer 1)
     { instructions := [.loadConstant 0, .loadConstant 1,
         .loadVariable 0, .storeSubscript],
       constants := [.integer 1, .integer 0], names := ["a"],
       parameters := 0 }
     (by simp [compileAssignment, compileExpression, compileConstant,
        useConstant, useName, constantEq, instA, newBuilder,
        List.findIdx?_nil, List.findIdx?_cons]),
   C5_store_stack_layout.2.1 (newBuilder 0) (.identifier "a") "p"
     (.integer 1)
     { instructions := [.loadConstant 0, .loadVariable 0,
         .storeProperty 1],
       constants := [.integer 1], names := ["a", "p"],
       parameters := 0 }
     (by simp [compileAssignment, compileExpression, compileConstant,
        useConstant, useName, constantEq, instA, newBuilder,
        List.findIdx?_nil, List.findIdx?_cons]),
   C5_store_stack_layout.2.2.1 1 C5State C5Frame .null (.integer 1)
     (.integer 7) [] rfl rfl,
   C5_store_stack_layout.2.2.2 1 C5State C5Frame 0 "p" .null
     (.integer 1) [.integer 7] rfl rfl rfl⟩

/-! Claim C3. -/

/-- C3: a compiled if/else patches `JumpFalse` (and the `Jump` that
skips the else body) to the last-written instruction index of the
branch destination: with no else body the `JumpFalse` targets the last
instruction of the then block; with an else body it targets the `Jump`
itself, and the `Jump` targets the last instruction of the else block.
The interpreter's program-counter post-increment runs after every
instruction including a taken jump, so a taken `Jump a` or
`JumpFalse a` resumes at instruction `a + 1`, immediately after the
branch target, while an untaken `JumpFalse` just pops the condition and
falls through. -/
theorem C3_branch_targets :
    (∀ (b : CodeBuilder) (cond : Expression)
      (body elseBody : List Statement) (b' : CodeBuilder),
      compileIfStatement b cond body elseBody = .ok b' →
      ∃ b1 t2, compileExpression b cond = .ok b1 ∧
        (∃ t1, b1.instructions = b.instructions ++ t1) ∧
        ((elseBody = [] ∧
          b'.instructions = b1.instructions
            ++ [.jumpFalse (b1.instructions.length + t2.length)]
            ++ t2) ∨
         (elseBody ≠ [] ∧ ∃ t3, t3 ≠ [] ∧
          b'.instructions = b1.instructions
            ++ [.jumpFalse (b1.instructions.length + 1 + t2.length)]
            ++ t2
            ++ [.jump (b1.instructions.length + 1 + t2.length
                  + t3.length)]
            ++ t3))) ∧
    (∀ (fuel : Nat) (st : MachState) (fr : FrameRec) (a : Nat),
      st.next_action = none → st.currentFrame? = some fr →
      fr.code.instructions[fr.instruction_count]? = some (.jump a) →
      step fuel st = .next
        { st with
          frames := st.frames.set st.frame
            { fr with instruction_count := a + 1 } }) ∧
    (∀ (fuel : Nat) (st : MachState) (fr : FrameRec) (a : Nat)
      (v : Value) (rest : List Value),
      st.next_action = none → st.currentFrame? = some fr →
      fr.code.instructions[fr.instruction_count]? =
        some (.jumpFalse a) →
      fr.stack = v :: rest → v.asBoolV = .ok false →
      step fuel st = .next
        { st with
          frames := st.frames.set st.frame
            { fr with
                stack := rest,
                instruction_count := a + 1 } }) ∧
    (∀ (fuel : Nat) (st : MachState) (fr : FrameRec) (a : Nat)
      (v : Value) (rest : List Value),
      st.next_action = none → st.currentFrame? = some fr →
      fr.code.instructions[fr.instruction_count]? =
        some (.jumpFalse a) →
      fr.stack = v :: rest → v.asBoolV = .ok true →
      step fuel st = .next
        { st with
          frames := st.frames.set st.frame
            { fr with
                stack := rest,
                instruction_count := fr.instruction_count + 1 } }) := by
  refine ⟨fun b cond body elseBody b' h =>
    compileIfStatement_layout b cond body elseBody b' h, ?_, ?_, ?_⟩
  · intro fuel st fr a hact hfr hinstr
    have hlt : st.frame < st.frames.length := lt_of_getElem?_some hfr
    have hci : currentInstruction st = .ok (.jump a) := by
      simp [currentInstruction, hfr, hinstr]
    have hj : execJump st a =
        .ok (setCurrentFrame st { fr with instruction_count := a }) := by
      simp [execJump, hfr]
    have hc1 := currentFrame?_setCurrentFrame st
      { fr with instruction_count := a } hlt
    have hadv : advancePC
        (setCurrentFrame st { fr with instruction_count := a }) =
        .ok { st with
          frames := st.frames.set st.frame
            { fr with instruction_count := a + 1 } } := by
      simp only [advancePC, hc1]
      simp [setCurrentFrame, List.set_set]
    simp only [step, hact, execute, hci]
    simp only [hj, exceptBind_ok_left, hadv, hact]
    rfl
  · intro fuel st fr a v rest hact hfr hinstr hst hb
    have hlt : st.frame < st.frames.length := lt_of_getElem?_some hfr
    have hci : currentInstruction st = .ok (.jumpFalse a) := by
      simp [currentInstruction, hfr, hinstr]
    have hpop := framePop_cons st fr v rest hfr hst
    have hc1 := currentFrame?_setCurrentFrame st
      { fr with stack := rest } hlt
    have hjf : execJumpFalse st a =
        .ok (setCurrentFrame st
          { fr with stack := rest, instruction_count := a }) := by
      rw [execJumpFalse, hpop]
      simp only [exceptBind_ok_left, hb]
      simp [hc1, setCurrentFrame_setCurrentFrame]
    have hc2 := currentFrame?_setCurrentFrame st
      { fr with stack := rest, instruction_count := a } hlt
    have hadv : advancePC (setCurrentFrame st
        { fr with stack := rest, instruction_count := a }) =
        .ok { st with
          frames := st.frames.set st.frame
            { fr with stack := rest, instruction_count := a + 1 } } := by
      simp only [advancePC, hc2]
      simp [setCurrentFrame, List.set_set]
    simp only [step, hact, execute, hci]
    simp only [hjf, exceptBind_ok_left, hadv, hact]
    rfl
  · intro fuel st fr a v rest hact hfr hinstr hst hb
    have hlt : st.frame < st.frames.length := lt_of_getElem?_some hfr
    have hci : currentInstruction st = .ok (.jumpFalse a) := by
      simp [currentInstruction, hfr, hinstr]
    have hpop := framePop_cons st fr v rest hfr hst
    have hjf : execJumpFalse st a =
        .ok (setCurrentFrame st { fr with stack := rest }) := by
      rw [execJumpFalse, hpop]
      simp only [exceptBind_ok_left, hb]
      simp
    have hc2 := currentFrame?_setCurrentFrame st
      { fr with stack := rest } hlt
    have hadv : advancePC (setCurrentFrame st
        { fr with stack := rest }) =
        .ok { st with
          frames := st.frames.set st.frame
            { fr with
                stack := rest,
                instruction_count := fr.instruction_count + 1 } } := by
      simp only [advancePC, hc2]
      simp [setCurrentFrame, List.set_set]
    simp only [step, hact, execute, hci]
    simp only [hjf, exceptBind_ok_left, hadv, hact]
    rfl

/-- One-frame states about to execute an unconditional jump, a taken
`JumpFalse` (false on top of the stack), and an untaken one. -/
def C3FrameJ : FrameRec :=
  { instruction_count := 0, code := .mk [.jump 6] [] [] 0, scope := [],
    calling_frame := none, outer_frame := none, stack := [] }

def C3StateJ : MachState :=
  { frames := [C3FrameJ], frame := 0, objects := [], lists := [],
    types := builtinTypes, next_action := none }

def C3FrameF : FrameRec :=
  { instruction_count := 0, code := .mk [.jumpFalse 4] [] [] 0,
    scope := [], calling_frame := none, outer_frame := none,
    stack := [.bool false] }

def C3StateF : MachState :=
  { frames := [C3FrameF], frame := 0, objects := [], lists := [],
    types := builtinTypes, next_action := none }

def C3FrameT : FrameRec :=
  { instruction_count := 0, code := .mk [.jumpFalse 4] [] [] 0,
    scope := [], calling_frame := none, outer_frame := none,
    stack := [.bool true] }

def C3StateT : MachState :=
  { frames := [C3FrameT], frame := 0, objects := [], lists := [],
    types := builtinTypes, next_action := none }

theorem C3_witness :
    (∃ b1 t2,
      compileExpression (newBuilder 0) (.integer 1) = .ok b1 ∧
      (∃ t1, b1.instructions = (newBuilder 0).instructions ++ t1) ∧
      (([Statement.expression (.integer 3)] = ([] : List Statement) ∧
        ({ instructions := [.loadConstant 0, .jumpFalse 4,
             .loadConstant 1, .pop, .jump 6, .loadConstant 2, .pop],
           constants := [.integer 1, .integer 2, .integer 3],
           names := [], parameters := 0 } : CodeBuilder).instructions =
          b1.instructions
            ++ [.jumpFalse (b1.instructions.length + t2.length)]
            ++ t2) ∨
       ([Statement.expression (.integer 3)] ≠ ([] : List Statement) ∧
        ∃ t3, t3 ≠ [] ∧
        ({ instructions := [.loadConstant 0, .jumpFalse 4,
             .loadConstant 1, .pop, .jump 6, .loadConstant 2, .pop],
           constants := [.integer 1, .integer 2, .integer 3],
           names := [], parameters := 0 } : CodeBuilder).instructions =
          b1.instructions
            ++ [.jumpFalse (b1.instructions.length + 1 + t2.length)]
            ++ t2
            ++ [.jump (b1.instructions.length + 1 + t2.length
                  + t3.length)]
            ++ t3))) ∧
    step 1 C3StateJ = .next
      { C3StateJ with
        frames := C3StateJ.frames.set C3StateJ.frame
          { C3FrameJ with instruction_count := 6 + 1 } } ∧
    step 1 C3StateF = .next
      { C3StateF with
        frames := C3StateF.frames.set C3StateF.frame
          { C3FrameF with
              stack := [],
              instruction_count := 4 + 1 } } ∧
    step 1 C3StateT = .next
      { C3StateT with
        frames := C3StateT.frames.set C3StateT.frame
          { C3FrameT with
              stack := [],
              instruction_count := C3FrameT.instruction_count + 1 } } :=
  ⟨C3_branch_targets.1 (newBuilder 0) (.integer 1)
     [.expression (.integer 2)] [.expression (.integer 3)]
     { instructions := [.loadConstant 0, .jumpFalse 4, .loadConstant 1,
         .pop, .jump 6, .loadConstant 2, .pop],
       constants := [.integer 1, .integer 2, .integer 3],
       names := [], parameters := 0 }
     (by simp [compileIfStatement, compileStatements, compileStatement,
        compileExpression, compileConstant, useConstant, constantEq,
        instA, newBuilder, List.findIdx?_nil, List.findIdx?_cons]),
   C3_branch_targets.2.1 1 C3StateJ C3FrameJ 6 rfl rfl rfl,
   C3_branch_targets.2.2.1 1 C3StateF C3FrameF 4 (.bool false) [] rfl
     rfl rfl rfl rfl,
   C3_branch_targets.2.2.2 1 C3StateT C3FrameT 4 (.bool true) [] rfl
     rfl rfl rfl rfl⟩

end San
